import Mathlib

/-!
Verification development for the ATS-Scan resume analyzer.

The definitions below are a shallow embedding of the scoring engine of the
repository: the deterministic format scorer (`server/services/pdf-processor.ts`),
the content / keyword analyzers with their deterministic fallbacks and the AI
response routing (`server/services/openai.ts`), the report aggregation
(`ATSAnalyzer.analyzeResume` / `analyzeResumeWithJob`), the client-side
partial-match refinement (`client/.../keyword-analysis.tsx`) and the
client-side recomputed display score (`client/.../ats-overview.tsx`).

Modelling conventions:
- JavaScript numbers are modelled as exact rationals; `Math.round` is
  `jsRound q = ⌊q + 1/2⌋` (round half toward positive infinity), weights such
  as `0.25` are the exact rationals `25/100`.
- JavaScript strings are Lean `String`s; `toLowerCase` is mapped over the
  characters (the inputs of interest are ASCII).
- The regular-expression tests of the source are compiled by hand into
  executable scanners over `List Char` with the same matching semantics
  (leftmost match, greediness / laziness as in the source pattern).
- The external AI collaborator is a parameter: each AI-backed operation takes
  a value describing the outcome of its AI call (the fetch failing, the
  response shape being unreadable, or the returned message content), and the
  response routing of the source, including the canned substitution performed
  inside `callMoonshotAPI`, is reproduced on top of it.
-/

namespace ATSScan

set_option maxRecDepth 10000

/-! ### JavaScript string primitives -/

/-- Whitespace as matched by the `\s` class (ASCII part). -/
def isJsWs (c : Char) : Bool :=
  c = ' ' || c = '\t' || c = '\n' || c = '\r' || c = '\x0b' || c = '\x0c'

/-- Word characters, the `\w` class: `[A-Za-z0-9_]`. -/
def isWordChar (c : Char) : Bool :=
  ('a' ≤ c && c ≤ 'z') || ('A' ≤ c && c ≤ 'Z') || ('0' ≤ c && c ≤ '9') || c = '_'

def isAsciiLetter (c : Char) : Bool :=
  ('a' ≤ c && c ≤ 'z') || ('A' ≤ c && c ≤ 'Z')

def isLowerLetter (c : Char) : Bool := 'a' ≤ c && c ≤ 'z'

def isUpperLetter (c : Char) : Bool := 'A' ≤ c && c ≤ 'Z'

def isDigitChar (c : Char) : Bool := '0' ≤ c && c ≤ '9'

/-- Wordness of an optional character; the ends of a string count as
non-word for the purposes of the `\b` assertion. -/
def wOpt : Option Char → Bool
  | none => false
  | some c => isWordChar c

/-- `toLowerCase` (ASCII). -/
def strLower (s : String) : String := ⟨s.data.map Char.toLower⟩

/-- `trim`: drop `\s` characters from both ends. -/
def jsTrim (s : String) : String :=
  ⟨((s.data.dropWhile isJsWs).reverse.dropWhile isJsWs).reverse⟩

/-- Does `l` start with the sequence `pat`? -/
def startsSeq : List Char → List Char → Bool
  | [], _ => true
  | _ :: _, [] => false
  | a :: as, b :: bs => a = b && startsSeq as bs

/-- Does some suffix of `l` satisfy `p`? (The empty suffix is tried too,
like a regex engine trying the position at the end of the string.) -/
def anySuffix (p : List Char → Bool) : List Char → Bool
  | [] => p []
  | l@(_ :: rest) => p l || anySuffix p rest

/-- Does `l` contain `pat` as a contiguous subsequence (`String.includes`)? -/
def containsSeq (pat : List Char) (l : List Char) : Bool :=
  anySuffix (startsSeq pat) l

/-- `hay.includes(pat)`. -/
def containsStr (hay pat : String) : Bool := containsSeq pat.data hay.data

/-- Number of maximal whitespace runs in the list (the flag records whether
the previous character was whitespace). -/
def wsRunsAux : Bool → List Char → Nat
  | _, [] => 0
  | prevWs, c :: l =>
    if isJsWs c then (if prevWs then 0 else 1) + wsRunsAux true l
    else wsRunsAux false l

/-- `text.split(/\s+/).length`: JavaScript split produces one fragment more
than the number of separator matches, counting the empty fragments at the
ends, so the length is the number of maximal whitespace runs plus one. -/
def jsWordCount (s : String) : Nat := wsRunsAux false s.data + 1

/-- Split at each character satisfying `p`, keeping the (possibly empty)
fragments between the separators, as JavaScript `split` on a single-character
class. -/
def splitCharFrags (p : Char → Bool) : List Char → List (List Char)
  | [] => [[]]
  | c :: rest =>
    if p c then [] :: splitCharFrags p rest
    else
      match splitCharFrags p rest with
      | f :: fs => (c :: f) :: fs
      | [] => [[c]]

/-- `text.split('\n')`. -/
def jsLines (s : String) : List String :=
  (splitCharFrags (fun c => c = '\n') s.data).map fun l => ⟨l⟩

/-- Maximal runs of characters satisfying `p` (used for `split` on the
complement class; the empty JavaScript fragments are dropped, which is
harmless in every use site because they are filtered out by a length bound). -/
def runsOf (p : Char → Bool) : List Char → List (List Char)
  | [] => []
  | c :: rest =>
    if p c then
      (c :: rest.takeWhile p) :: runsOf p (rest.dropWhile p)
    else runsOf p rest
termination_by l => l.length
decreasing_by
  · simp only [List.length_cons]
    have := (List.dropWhile_sublist (p := p) (l := rest)).length_le
    omega
  · simp

/-! ### Regex tests of the format scorer -/

/-- Tail of the email pattern after the `@` and the first character of the
middle run: succeeds when a `.` with a non-whitespace character after it is
reachable through non-whitespace characters. -/
def emailTailAux : List Char → Bool
  | [] => false
  | c :: rest =>
    (c = '.' && (match rest with | d :: _ => !isJsWs d | [] => false))
      || (!isJsWs c && emailTailAux rest)

/-- Part of the email pattern after the `@`: a nonempty all-non-whitespace
run, a `.`, and a non-whitespace character. -/
def emailAfterAt : List Char → Bool
  | [] => false
  | c :: rest => !isJsWs c && emailTailAux rest

/-- Scan for `@` positions with a non-whitespace character before. -/
def emailScan : Char → List Char → Bool
  | _, [] => false
  | prev, c :: rest =>
    (c = '@' && !isJsWs prev && emailAfterAt rest) || emailScan c rest

/-- `/\S+@\S+\.\S+/.test(text)`. -/
def hasEmail (s : String) : Bool :=
  match s.data with
  | [] => false
  | c :: rest => emailScan c rest

/-- Take exactly `n` digits, returning the remainder. -/
def takeDigits : Nat → List Char → Option (List Char)
  | 0, l => some l
  | _ + 1, [] => none
  | n + 1, c :: l => if isDigitChar c then takeDigits n l else none

/-- Optional `[-.]` separator (the separator characters are not digits, so
the regex' optional group is deterministic here). -/
def optSep : List Char → List Char
  | [] => []
  | c :: l => if c = '-' || c = '.' then l else c :: l

/-- Match of `\d{3}[-.]?\d{3}[-.]?\d{4}` anchored at the head of the list. -/
def phoneAt (l : List Char) : Bool :=
  match takeDigits 3 l with
  | none => false
  | some l1 =>
    match takeDigits 3 (optSep l1) with
    | none => false
    | some l2 => (takeDigits 4 (optSep l2)).isSome

/-- `/\d{3}[-.]?\d{3}[-.]?\d{4}/.test(text)`. -/
def hasPhone (s : String) : Bool := anySuffix phoneAt s.data

/-- `(text.match(/[•·-]/g) || []).length`. -/
def bulletGlyphCount (s : String) : Nat :=
  s.data.countP (fun c => c = '•' || c = '·' || c = '-')

/-! ### FormatScorer (`PDFProcessor.analyzeFormat`) -/

structure FormatAnalysis where
  formatScore : ℤ
  issues : List String
  suggestions : List String
deriving DecidableEq, Repr

def sectionsList : List String := ["experience", "education", "skills", "summary", "contact"]

/-- `PDFProcessor.analyzeFormat`: start at 100, then apply the deductions of
the source in order, each appending one issue and one suggestion; the output
score is `Math.max(0, score)`. -/
def analyzeFormat (text : String) : FormatAnalysis :=
  let lower := strLower text
  let foundSections := sectionsList.filter (fun s => containsStr lower s)
  let bulletCount := bulletGlyphCount text
  let emailB := hasEmail text
  let phoneB := hasPhone text
  let wordCount := jsWordCount text
  let score : ℤ := 100
    - (if foundSections.length < 3 then 20 else 0)
    - (if bulletCount < 5 then 15 else 0)
    - (if emailB then 0 else 10)
    - (if phoneB then 0 else 10)
    - (if wordCount < 200 then 15 else if 800 < wordCount then 10 else 0)
  { formatScore := max 0 score
    issues :=
      (if foundSections.length < 3 then ["Missing essential sections"] else [])
        ++ (if bulletCount < 5 then ["Few bullet points detected"] else [])
        ++ (if emailB then [] else ["No email address found"])
        ++ (if phoneB then [] else ["No phone number found"])
        ++ (if wordCount < 200 then ["Resume appears too short"]
            else if 800 < wordCount then ["Resume may be too long"] else [])
    suggestions :=
      (if foundSections.length < 3 then
        ["Add missing sections like Experience, Education, or Skills"] else [])
        ++ (if bulletCount < 5 then ["Use bullet points to organize information clearly"] else [])
        ++ (if emailB then [] else ["Include a professional email address"])
        ++ (if phoneB then [] else ["Include a phone number for contact"])
        ++ (if wordCount < 200 then ["Expand your experience and achievements"]
            else if 800 < wordCount then ["Consider condensing to 1-2 pages"] else []) }

/-- The deduction schedule of the format scorer, written as in the
specification: five independent deductions, with the two word-count
deductions mutually exclusive. -/
def formatDeduction (text : String) : ℤ :=
  (if (sectionsList.filter (fun s => containsStr (strLower text) s)).length < 3 then 20 else 0)
    + (if bulletGlyphCount text < 5 then 15 else 0)
    + (if hasEmail text then 0 else 10)
    + (if hasPhone text then 0 else 10)
    + (if jsWordCount text < 200 then 15
       else if 800 < jsWordCount text then 10 else 0)

/-- Number of deductions that fired. -/
def formatDeductionCount (text : String) : ℕ :=
  (if (sectionsList.filter (fun s => containsStr (strLower text) s)).length < 3 then 1 else 0)
    + (if bulletGlyphCount text < 5 then 1 else 0)
    + (if hasEmail text then 0 else 1)
    + (if hasPhone text then 0 else 1)
    + (if jsWordCount text < 200 then 1
       else if 800 < jsWordCount text then 1 else 0)

/-- A résumé text for Scenario B: fifty words, no bullet glyphs, no email,
no phone, fewer than three section keywords. -/
def scenarioBText : String := String.intercalate " " (List.replicate 50 "word")

/-! ### Report data model (`openai.ts` result shapes) -/

structure Improvement where
  priority : String
  category : String
  title : String
  description : String
  suggestions : Option (List String)
deriving DecidableEq, Repr

structure SectionStatus where
  «section» : String
  status : String
  suggestions : Option (List String)
deriving DecidableEq, Repr

structure ContentAnalysis where
  contentScore : ℚ
  improvements : List Improvement
  sectionCompleteness : List SectionStatus
deriving DecidableEq, Repr

structure KeywordAnalysis where
  keywordMatches : List String
  missingKeywords : List String
  keywordScore : ℚ
  improvementSuggestions : List String
deriving DecidableEq, Repr

/-- `Math.round`: round half toward positive infinity. -/
def jsRound (q : ℚ) : ℤ := (q + 1/2).floor

/-- `Math.max(0, Math.min(100, x))`. -/
def clampScore (x : ℚ) : ℚ := max 0 (min 100 x)

/-- `x || 50` applied to a possibly-absent JSON number: `undefined` and the
falsy value `0` both yield the default. -/
def orFifty : Option ℚ → ℚ
  | none => 50
  | some q => if q = 0 then 50 else q

/-! ### ContentScorer fallback (`OpenAIService.generateFallbackAnalysis`) -/

/-- Test of `/\d+%|\d+\+|increased|improved|reduced|led \d+|managed \d+/` on
the lowercased résumé text. -/
def hasQuantified (t : String) : Bool :=
  anySuffix (fun s =>
    match s with
    | a :: b :: _ => isDigitChar a && (b = '%' || b = '+')
    | _ => false) t.data
  || containsStr t "increased" || containsStr t "improved" || containsStr t "reduced"
  || anySuffix (fun s =>
      startsSeq "led ".data s && (match s.drop 4 with | d :: _ => isDigitChar d | [] => false))
    t.data
  || anySuffix (fun s =>
      startsSeq "managed ".data s
        && (match s.drop 8 with | d :: _ => isDigitChar d | [] => false))
    t.data

/-- The heuristic content score of the fallback: base 60 with the four
additive adjustments, capped at 100 at the output. -/
def fallbackContentScoreInt (resumeText : String) : ℤ :=
  let text := strLower resumeText
  min 100 (60
    + (if hasQuantified text then 15 else 0)
    + (if 5 ≤ bulletGlyphCount resumeText then 10 else 0)
    + (if 300 ≤ jsWordCount resumeText then 10 else 0)
    - (if 800 < jsWordCount resumeText then 5 else 0))

/-- `OpenAIService.generateFallbackAnalysis`: the deterministic heuristic
content analysis used when the AI response content cannot be parsed. -/
def generateFallbackAnalysis (resumeText : String) : ContentAnalysis :=
  let text := strLower resumeText
  let hasEmailB := hasEmail text
  let hasPhoneB := hasPhone text
  let hasExperience := containsStr text "experience" || containsStr text "work"
  let hasEducation := containsStr text "education" || containsStr text "degree"
  let hasSkills := containsStr text "skills" || containsStr text "technologies"
  let hasSummary := containsStr text "summary" || containsStr text "profile"
  let hasNumbers := hasQuantified text
  let bulletCount := bulletGlyphCount resumeText
  let wordCount := jsWordCount resumeText
  { contentScore := ((fallbackContentScoreInt resumeText : ℤ) : ℚ)
    improvements :=
      (if hasNumbers then [] else
        [{ priority := "high", category := "Content", title := "Add Quantified Achievements"
           description := "Your resume lacks specific numbers and metrics that demonstrate impact"
           suggestions := some
             ["Add percentage improvements (e.g., \x27Improved efficiency by 30%\x27)",
              "Include specific numbers (e.g., \x27Managed team of 5 developers\x27)",
              "Quantify results wherever possible"] }])
        ++ (if bulletCount < 5 then
            [{ priority := "medium", category := "Format", title := "Use More Bullet Points"
               description := "Bullet points help organize information for better readability"
               suggestions := some
                 ["Convert paragraph text to bullet points",
                  "Use action verbs to start each bullet",
                  "Keep bullets concise and impactful"] }] else [])
        ++ (if hasSummary then [] else
            [{ priority := "high", category := "Content", title := "Add Professional Summary"
               description := "A strong summary helps recruiters quickly understand your value proposition"
               suggestions := some
                 ["Write 2-3 sentences highlighting your expertise",
                  "Include years of experience and key skills",
                  "Mention your career goals or specialization"] }])
        ++ (if wordCount < 200 then
            [{ priority := "medium", category := "Content", title := "Expand Content"
               description := "Your resume appears too brief to showcase your full potential"
               suggestions := some
                 ["Add more details about your responsibilities",
                  "Include additional projects or achievements",
                  "Expand on your technical skills and experience"] }] else [])
    sectionCompleteness :=
      [{ «section» := "Contact Information"
         status := if hasEmailB && hasPhoneB then "complete" else "incomplete"
         suggestions := if !hasEmailB || !hasPhoneB then
             some ["Add professional email and phone number"] else none },
       { «section» := "Professional Experience"
         status := if hasExperience then "complete" else "missing"
         suggestions := if !hasExperience then
             some ["Add work experience with quantified achievements"] else none },
       { «section» := "Education"
         status := if hasEducation then "complete" else "incomplete"
         suggestions := if !hasEducation then
             some ["Include education background and certifications"] else none },
       { «section» := "Skills"
         status := if hasSkills then "complete" else "missing"
         suggestions := if !hasSkills then
             some ["Add relevant technical and soft skills"] else none },
       { «section» := "Summary/Profile"
         status := if hasSummary then "complete" else "missing"
         suggestions := if !hasSummary then
             some ["Add professional summary highlighting key strengths"] else none }] }

/-! ### AI call routing (`callMoonshotAPI` and its callers)

`callMoonshotAPI` never rejects: every failure of the fetch (network error,
non-2xx status, body that is not JSON) is caught inside it and replaced by a
canned response whose message content is a JSON object of the shape of a
content analysis (`contentScore: 65`, one "API Service Unavailable"
improvement, `sectionCompleteness: []`).  A caller therefore reaches its own
catch branch only when parsing the message content throws (the content is a
2xx AI answer that is not JSON) or when reading the response shape throws. -/

inductive AICall (α : Type) where
  /-- The fetch failed (network error, non-2xx, unparsable body); the wrapper
  substitutes the canned content-analysis object. -/
  | fetchFail : AICall α
  /-- The message content of a real AI answer failed to parse as JSON, so the
  caller's catch branch runs. -/
  | parseFail : AICall α
  /-- The message content parsed as JSON with the given (partial) fields. -/
  | parsed : α → AICall α

/-- Parsed JSON fields relevant to `analyzeResumeContent`; `none` is an
absent field. -/
structure ContentJson where
  contentScore : Option ℚ
  improvements : Option (List Improvement)
  sectionCompleteness : Option (List SectionStatus)

/-- Parsed JSON fields relevant to `compareWithJobDescription`. -/
structure KeywordJson where
  keywordMatches : Option (List String)
  missingKeywords : Option (List String)
  keywordScore : Option ℚ
  improvementSuggestions : Option (List String)

/-- The canned message content substituted by `callMoonshotAPI` on a failed
fetch, as seen by a caller parsing it: a content analysis with score 65. -/
def cannedContentJson : ContentJson :=
  { contentScore := some 65
    improvements := some
      [{ priority := "medium", category := "API Error", title := "API Service Unavailable"
         description := "Using fallback analysis due to API service error"
         suggestions := none }]
    sectionCompleteness := some [] }

/-- The canned message content as seen by `compareWithJobDescription`: a JSON
object none of whose keyword fields are present. -/
def cannedKeywordJson : KeywordJson :=
  { keywordMatches := none, missingKeywords := none
    keywordScore := none, improvementSuggestions := none }

/-- Field extraction of `analyzeResumeContent` on successfully parsed content:
`contentScore` is `Math.max(0, Math.min(100, result.contentScore || 50))`,
absent arrays default to `[]`. -/
def contentFromJson (j : ContentJson) : ContentAnalysis :=
  { contentScore := clampScore (orFifty j.contentScore)
    improvements := j.improvements.getD []
    sectionCompleteness := j.sectionCompleteness.getD [] }

/-- `OpenAIService.analyzeResumeContent`. -/
def analyzeResumeContent (resumeText : String) : AICall ContentJson → ContentAnalysis
  | .fetchFail => contentFromJson cannedContentJson
  | .parseFail => generateFallbackAnalysis resumeText
  | .parsed j => contentFromJson j

/-! ### Keyword fallback (`OpenAIService.generateFallbackKeywordAnalysis`) -/

def commonKeywords : List String :=
  ["javascript", "python", "java", "react", "node.js", "sql", "aws", "docker",
   "kubernetes", "agile", "scrum", "git", "mongodb", "postgresql", "api",
   "microservices", "ci/cd", "testing", "html", "css", "typescript",
   "machine learning", "data analysis", "project management", "leadership",
   "frontend", "backend", "full stack", "devops", "cloud", "mobile", "web",
   "database", "security", "ui/ux", "analytics", "automation", "rest api"]

/-- Class `[a-z\s]` of the phrase pattern. -/
def phraseClass (c : Char) : Bool := isLowerLetter c || isJsWs c

/-- Lazy part `[a-z\s]{5,30}?\b` of the phrase pattern: extend one character
at a time from five to thirty characters of the class, stopping at the first
length at which a word boundary follows (`last` is the last consumed
character, `acc` the consumed characters in reverse). -/
def phraseExtend : Char → Nat → List Char → List Char → Option (List Char × List Char)
  | last, k, acc, l =>
    if 5 ≤ k && (isWordChar last != wOpt l.head?) then some (acc.reverse, l)
    else if 30 ≤ k then none
    else
      match l with
      | [] => none
      | c :: rest => if phraseClass c then phraseExtend c (k + 1) (c :: acc) rest else none

/-- Global scan of `/\b[a-z][a-z\s]{5,30}?\b/g`: at each position with a word
boundary and a lowercase letter, attempt the lazy match; on success continue
after the match, otherwise advance one character. -/
def phraseScanFuel : Nat → Option Char → List Char → List (List Char)
  | 0, _, _ => []
  | _, _, [] => []
  | fuel + 1, prev, c0 :: rest =>
    if isLowerLetter c0 && !wOpt prev then
      match phraseExtend c0 0 [] rest with
      | some (body, rem) => (c0 :: body) :: phraseScanFuel fuel (some (body.getLastD c0)) rem
      | none => phraseScanFuel fuel (some c0) rest
    else phraseScanFuel fuel (some c0) rest

/-- `text.match(/\b[a-z][a-z\s]{5,30}?\b/g) || []`. -/
def phrasesOf (s : String) : List String :=
  (phraseScanFuel (s.data.length + 1) none s.data).map fun l => ⟨l⟩

/-- Global scan of `/\b[A-Z][a-zA-Z]+\b/g`: a maximal ASCII-letter run that
starts with an uppercase letter, has length at least two, and is bounded by
non-word characters (a maximal run followed by a digit or underscore admits
no match anywhere inside it, so checking the run boundary is exact). -/
def capScanFuel : Nat → Option Char → List Char → List (List Char)
  | 0, _, _ => []
  | _, _, [] => []
  | fuel + 1, prev, c :: rest =>
    if isUpperLetter c && !wOpt prev then
      let run := c :: rest.takeWhile isAsciiLetter
      let rem := rest.dropWhile isAsciiLetter
      if 2 ≤ run.length && !wOpt rem.head? then
        run :: capScanFuel fuel run.getLast? rem
      else capScanFuel fuel (some c) rest
    else capScanFuel fuel (some c) rest

/-- `text.match(/\b[A-Z][a-zA-Z]+\b/g) || []`. -/
def capTermsOf (s : String) : List String :=
  (capScanFuel (s.data.length + 1) none s.data).map fun l => ⟨l⟩

/-- First-occurrence deduplication, as `[...new Set(keywords)]`. -/
def dedupKeep : List String → List String
  | [] => []
  | x :: xs => x :: (dedupKeep xs).filter (fun y => y ≠ x)

/-- The inner `extractKeywords` of `generateFallbackKeywordAnalysis`: single
words of length above three, contained common keywords, lazy multi-word
phrases, lowercased capitalized terms, deduplicated. -/
def extractKeywords (text : String) : List String :=
  let words := ((runsOf isWordChar text.data).map (fun l => (⟨l⟩ : String))).filter
    (fun w => 3 < w.length)
  let common := commonKeywords.filter (fun k => containsStr text (strLower k))
  let phrases := phrasesOf text
  let caps := (capTermsOf text).map strLower
  dedupKeep (words ++ common ++ phrases ++ caps)

/-- The candidate keywords drawn from the job description: extracted,
filtered to length above three, and capped to the first twenty. -/
def fallbackJobKeywords (jobDescription : String) : List String :=
  ((extractKeywords (strLower jobDescription)).filter (fun k => 3 < k.length)).take 20

/-- Classification predicate: `resumeTextLower.includes(keyword.toLowerCase())`. -/
def keywordInResume (resumeText : String) (keyword : String) : Bool :=
  containsStr (strLower resumeText) (strLower keyword)

/-- Candidates found in the résumé, in candidate order. -/
def fallbackMatchesRaw (resumeText jobDescription : String) : List String :=
  (fallbackJobKeywords jobDescription).filter (keywordInResume resumeText)

/-- Candidates missing from the résumé, in candidate order (before the
truncation to ten applied at the return). -/
def fallbackMissing (resumeText jobDescription : String) : List String :=
  (fallbackJobKeywords jobDescription).filter (fun k => !keywordInResume resumeText k)

def defaultMatchTerms : List String := ["programming", "software", "development", "experience"]

/-- The matches list after the augmentation step: when no candidate matched,
the default terms present in the résumé are pushed. -/
def fallbackMatches (resumeText jobDescription : String) : List String :=
  if (fallbackMatchesRaw resumeText jobDescription).length = 0 then
    defaultMatchTerms.filter (fun t => containsStr (strLower resumeText) t)
  else fallbackMatchesRaw resumeText jobDescription

def technicalTerms : List String :=
  ["javascript", "python", "java", "react", "node", "sql", "aws", "docker", "kubernetes",
   "git", "mongodb", "api", "frontend", "backend", "database", "cloud"]

def softSkillTerms : List String :=
  ["leadership", "management", "communication", "teamwork", "collaboration",
   "problem-solving", "analytical", "creative", "detail-oriented", "agile", "scrum"]

def domainTerms : List String :=
  ["finance", "healthcare", "retail", "marketing", "sales", "education",
   "manufacturing", "logistics", "security", "analytics"]

/-- `categorizeKeywords`, returning the technical, soft, and domain buckets
(the `other` bucket is unused by the suggestions). -/
def categorizeKeywords (keywords : List String) : List String × List String × List String :=
  (keywords.filter (fun kw => technicalTerms.any (fun t => containsStr kw t)),
   keywords.filter (fun kw =>
     !technicalTerms.any (fun t => containsStr kw t)
       && softSkillTerms.any (fun t => containsStr kw t)),
   keywords.filter (fun kw =>
     !technicalTerms.any (fun t => containsStr kw t)
       && !softSkillTerms.any (fun t => containsStr kw t)
       && domainTerms.any (fun t => containsStr kw t)))

/-- The `generateSuggestions` closure of `generateFallbackKeywordAnalysis`. -/
def fallbackKeywordSuggestions (missingKeywords : List String) : List String :=
  let cats := categorizeKeywords missingKeywords
  if missingKeywords.length = 0 then ["Great keyword coverage for this role!"]
  else
    let top := String.intercalate ", " (missingKeywords.take 3)
    [s!"Add these key missing terms: {top}"]
      ++ (if 0 < cats.1.length then
          let t := String.intercalate ", " (cats.1.take 3)
          [s!"Highlight technical skills like: {t}"] else [])
      ++ (if 0 < cats.2.1.length then
          let t := String.intercalate ", " (cats.2.1.take 2)
          [s!"Incorporate soft skills such as: {t}"] else [])
      ++ (if 0 < cats.2.2.length then
          let t := String.intercalate ", " (cats.2.2.take 2)
          [s!"Add domain knowledge in: {t}"] else [])
      ++ ["Tailor your resume to match terminology used in the job description"]

/-- `OpenAIService.generateFallbackKeywordAnalysis`: classify the candidates
by containment, augment empty matches with default terms, score by
`Math.round((matches / (matches + missing)) * 100)` when the matches list is
non-empty and use the default 30 otherwise, and return the missing list
truncated to its first ten entries. -/
def generateFallbackKeywordAnalysis (resumeText jobDescription : String) : KeywordAnalysis :=
  let keywordMatches := fallbackMatches resumeText jobDescription
  let missingKeywords := fallbackMissing resumeText jobDescription
  let keywordScore : ℚ :=
    if 0 < keywordMatches.length then
      ((jsRound ((keywordMatches.length : ℚ)
        / ((keywordMatches.length + missingKeywords.length : ℕ) : ℚ) * 100) : ℤ) : ℚ)
    else 30
  { keywordMatches := keywordMatches
    missingKeywords := missingKeywords.take 10
    keywordScore := keywordScore
    improvementSuggestions := fallbackKeywordSuggestions missingKeywords }

/-- Field extraction of `compareWithJobDescription` on successfully parsed
content. -/
def keywordFromJson (j : KeywordJson) : KeywordAnalysis :=
  { keywordMatches := j.keywordMatches.getD []
    missingKeywords := j.missingKeywords.getD []
    keywordScore := clampScore (orFifty j.keywordScore)
    improvementSuggestions := j.improvementSuggestions.getD [] }

/-- `OpenAIService.compareWithJobDescription`. -/
def compareWithJobDescription (resumeText jobDescription : String) :
    AICall KeywordJson → KeywordAnalysis
  | .fetchFail => keywordFromJson cannedKeywordJson
  | .parseFail => generateFallbackKeywordAnalysis resumeText jobDescription
  | .parsed j => keywordFromJson j

/-! ### Report aggregation (`ATSAnalyzer`) -/

structure Report where
  atsScore : ℤ
  formatScore : ℤ
  keywordScore : ℚ
  contentScore : ℚ
  keywordMatches : List String
  missingKeywords : List String
  improvements : List Improvement
  sectionCompleteness : List SectionStatus
deriving DecidableEq, Repr

/-- `ATSAnalyzer.analyzeResume` (no job description).  The pseudo-random
jitter `Math.floor(Math.random() * 10)` is passed in as `r : Fin 10`. -/
def analyzeResume (resumeText : String) (c : AICall ContentJson) (r : Fin 10) : Report :=
  let formatAnalysis := analyzeFormat resumeText
  let contentAnalysis := analyzeResumeContent resumeText c
  let defaultKeywordScore : ℚ :=
    min 85 (max 40 (contentAnalysis.contentScore + (r.val : ℚ) - 5))
  let atsScore := jsRound ((formatAnalysis.formatScore : ℚ) * (30/100)
    + contentAnalysis.contentScore * (40/100) + defaultKeywordScore * (30/100))
  { atsScore := atsScore
    formatScore := formatAnalysis.formatScore
    keywordScore := defaultKeywordScore
    contentScore := contentAnalysis.contentScore
    keywordMatches := []
    missingKeywords := []
    improvements := contentAnalysis.improvements
    sectionCompleteness := contentAnalysis.sectionCompleteness }

/-- `ATSAnalyzer.analyzeResumeWithJob`: the overall score uses the
recomputed `dynamicKeywordScore`, while the report carries the analyzer's
`keywordScore` field unchanged. -/
def analyzeResumeWithJob (resumeText jobDescription : String)
    (c : AICall ContentJson) (k : AICall KeywordJson) : Report :=
  let formatAnalysis := analyzeFormat resumeText
  let contentAnalysis := analyzeResumeContent resumeText c
  let keywordAnalysis := compareWithJobDescription resumeText jobDescription k
  let keywordMatchCount := keywordAnalysis.keywordMatches.length
  let missingKeywordCount := keywordAnalysis.missingKeywords.length
  let totalKeywords := keywordMatchCount + missingKeywordCount
  let dynamicKeywordScore : ℚ :=
    if 0 < totalKeywords then
      ((jsRound ((keywordMatchCount : ℚ) / (totalKeywords : ℚ) * 100) : ℤ) : ℚ)
    else keywordAnalysis.keywordScore
  let atsScore := jsRound ((formatAnalysis.formatScore : ℚ) * (25/100)
    + contentAnalysis.contentScore * (35/100) + dynamicKeywordScore * (40/100))
  let missingCount := keywordAnalysis.missingKeywords.length
  { atsScore := atsScore
    formatScore := formatAnalysis.formatScore
    keywordScore := keywordAnalysis.keywordScore
    contentScore := contentAnalysis.contentScore
    keywordMatches := keywordAnalysis.keywordMatches
    missingKeywords := keywordAnalysis.missingKeywords
    improvements := contentAnalysis.improvements
      ++ (if 0 < keywordAnalysis.missingKeywords.length then
          [{ priority := "high", category := "Keywords", title := "Add Missing Keywords"
             description :=
               s!"Your resume is missing {missingCount} key terms from the job description"
             suggestions := some keywordAnalysis.improvementSuggestions }] else [])
    sectionCompleteness := contentAnalysis.sectionCompleteness }

/-! ### Client display score (`ATSOverview`, `ats-overview.tsx`)

The dashboard recomputes a display score from the persisted report with
fixed weights 0.30 / 0.40 / 0.30 and applies the +5 bonus (capped at 100)
when at least 80% of the keywords matched.  This value only drives the
score meter; the report's `atsScore` is not changed. -/
def calculatedScore (r : Report) : ℤ :=
  let dynamicScore := jsRound ((r.formatScore : ℚ) * (30/100)
    + r.keywordScore * (40/100) + r.contentScore * (30/100))
  let total := r.keywordMatches.length + r.missingKeywords.length
  let keywordMatchPercentage : ℚ :=
    if 0 < total then (r.keywordMatches.length : ℚ) / (total : ℚ) * 100 else 0
  let finalScore := if 80 ≤ keywordMatchPercentage then dynamicScore + 5 else dynamicScore
  min finalScore 100

/-! ### Partial-match refinement (`KeywordAnalysis`, `keyword-analysis.tsx`) -/

structure CloudKeyword where
  text : String
  weight : ℚ
  found : Bool
  status : String
deriving DecidableEq, Repr

/-- `keyword.toLowerCase().replace(/s$|ing$|ed$/, '')`: the three suffix
alternatives are all anchored at the end, so the leftmost (single) match is
the longest of the suffixes that applies. -/
def jsStem (kw : String) : String :=
  let l := strLower kw
  if l.data.reverse.take 3 = "ing".data.reverse then ⟨l.data.take (l.data.length - 3)⟩
  else if l.data.reverse.take 2 = "ed".data.reverse then ⟨l.data.take (l.data.length - 2)⟩
  else if l.data.reverse.take 1 = "s".data.reverse then ⟨l.data.take (l.data.length - 1)⟩
  else l

/-- Match of `\bpat\b` at the head position: the sequence is present and both
ends lie on word boundaries (`prev` is the character before the position). -/
def wholeWordHere (pat : List Char) (prev : Option Char) (l : List Char) : Bool :=
  startsSeq pat l && (wOpt prev != wOpt pat.head?)
    && (wOpt pat.getLast? != wOpt (l.drop pat.length).head?)

/-- Scan of `\bpat\b` over all positions. -/
def wholeWordScan (pat : List Char) : Option Char → List Char → Bool
  | prev, [] => wholeWordHere pat prev []
  | prev, l@(c :: rest) => wholeWordHere pat prev l || wholeWordScan pat (some c) rest

/-- `new RegExp(`\x5cb${part}\x5cb`, 'i').test(resumeLower)` for a lowercase
`part` against the lowercased résumé. -/
def wholeWordTest (resumeLower part : String) : Bool :=
  wholeWordScan part.data none resumeLower.data

/-- Match of `\bstem\w*\b` at the head position: the trailing `\w*\b` always
succeeds when the stem ends in a word character (extend greedily to the end
of the word run) and otherwise requires a word character right after. -/
def stemWordHere (pat : List Char) (prev : Option Char) (l : List Char) : Bool :=
  startsSeq pat l && (wOpt prev != wOpt pat.head?)
    && (wOpt pat.getLast? || wOpt (l.drop pat.length).head?)

/-- Scan of `\bstem\w*\b` over all positions. -/
def stemWordScan (pat : List Char) : Option Char → List Char → Bool
  | prev, [] => stemWordHere pat prev []
  | prev, l@(c :: rest) => stemWordHere pat prev l || stemWordScan pat (some c) rest

/-- `new RegExp(`\x5cb${keywordBase}\x5cw*\x5cb`, 'i').test(resumeLower)`. -/
def stemWordTest (resumeLower stem : String) : Bool :=
  stemWordScan stem.data none resumeLower.data

/-- JavaScript split on `/\s+/` returning the fragments, with the empty
fragments the engine produces at the two ends. -/
def jsSplitWs (s : String) : List String :=
  if s.data = [] then [""]
  else
    (if isJsWs (s.data.headI) then [""] else [])
      ++ (runsOf (fun c => !isJsWs c) s.data).map (fun l => (⟨l⟩ : String))
      ++ (if isJsWs (s.data.getLastD ' ') then [""] else [])

/-- The filter predicate of the `partialMatches` memo: a multi-word missing
keyword is kept when a constituent word longer than three characters occurs
as a whole word in the résumé, a single-word keyword when its stem (one
trailing `s` / `ing` / `ed` stripped) has length at least four and the résumé
contains a whole word beginning with it. -/
def isPartCandidate (resumeLower : String) (keyword : String) : Bool :=
  if containsStr keyword " " then
    (jsSplitWs (strLower keyword)).any (fun part =>
      3 < part.length && wholeWordTest resumeLower part)
  else
    let keywordBase := jsStem keyword
    if keywordBase.length < 4 then false
    else stemWordTest resumeLower keywordBase

/-- The `partialMatches` memo of the keyword dashboard: missing keywords
whose parts are present, capped to the first eight, each surfaced with
status "partial" and weight 7. -/
def partMatches (missingKeywords : List String) (resumeText : String) : List CloudKeyword :=
  let resumeLower := strLower resumeText
  (((missingKeywords.filter (isPartCandidate resumeLower)).take 8).map fun kw =>
    { text := kw, weight := 7, found := false, status := "partial" })

/-! ### InterviewQuestionEngine (`generateInterviewQuestions` and its fallback)

The five entity extractions run before the AI call; their results are the
`ExtractedProfile` parameter here, and the fallback generator (which in the
source re-runs the extractors on the same text) receives the same profile. -/

structure InterviewQuestion where
  category : String
  question : String
  tips : List String
  resume_context : Option String
deriving DecidableEq, Repr

structure ExtractedProfile where
  jobTitles : List String
  companies : List String
  skills : List String
  achievements : List String
  projects : List String
deriving DecidableEq, Repr

/-- `jobTitle || 'Software Engineer'` (an absent or empty title is falsy). -/
def jobTitleOr (jobTitle : Option String) : String :=
  match jobTitle with
  | none => "Software Engineer"
  | some t => if t = "" then "Software Engineer" else t

/-- The `hasValidData` check before the AI call. -/
def hasValidData (prof : ExtractedProfile) : Bool :=
  (0 < prof.jobTitles.length && prof.jobTitles.headI ≠ "Software Engineer")
    || (0 < prof.companies.length && prof.companies.headI ≠ "No specific company identified")
    || (0 < prof.skills.length)
    || (0 < prof.projects.length && prof.projects.headI ≠ "No specific projects identified")

/-- The project-name part of an extracted project entry: the text before the
first `:` when one is present. -/
def projectNameOf (project : String) : String :=
  if containsStr project ":" then ⟨project.data.takeWhile (fun c => c ≠ ':')⟩ else project

/-- The personalization test of the gate: the lowercased question text
contains an extracted company (other than the placeholder), job title (other
than the default), any skill, or a project name (other than the
placeholder). -/
def isPersonalized (prof : ExtractedProfile) (q : InterviewQuestion) : Bool :=
  let questionText := strLower q.question
  prof.companies.any (fun company =>
      company ≠ "No specific company identified"
        && containsStr questionText (strLower company))
    || prof.jobTitles.any (fun title =>
        title ≠ "Software Engineer" && containsStr questionText (strLower title))
    || prof.skills.any (fun skill => containsStr questionText (strLower skill))
    || prof.projects.any (fun project =>
        let projectName := projectNameOf project
        projectName ≠ "No specific projects identified"
          && containsStr questionText (strLower projectName))

/-- The per-question enhancement applied to accepted AI results. -/
def enhanceQuestion (q : InterviewQuestion) : InterviewQuestion :=
  let tips1 :=
    if q.category = "Technical" && !(q.tips.any (fun tip => containsStr tip "example")) then
      q.tips ++ ["Prepare a specific code or implementation example to illustrate your answer"]
    else q.tips
  let tips2 :=
    if q.category = "Behavioral" && !(tips1.any (fun tip => containsStr tip "STAR")) then
      tips1 ++ ["Use the STAR method: Situation, Task, Action, Result"]
    else tips1
  { q with tips := tips2 }

def fallbackLanguageTerms : List String :=
  ["javascript", "python", "java", "c#", "c++", "typescript", "go", "ruby", "php",
   "swift", "kotlin"]

def fallbackFrameworkTerms : List String :=
  ["react", "angular", "vue", "django", "flask", "spring", "express", "node", ".net",
   "laravel", "rails"]

def fallbackDatabaseTerms : List String :=
  ["sql", "nosql", "mongodb", "postgresql", "mysql", "oracle", "dynamodb", "firebase",
   "redis"]

def fallbackCloudTerms : List String :=
  ["aws", "azure", "gcp", "cloud", "docker", "kubernetes", "serverless", "lambda"]

/-- `OpenAIService.generateFallbackInterviewQuestions`: the template-filled
question list built from the extracted profile, capped to ten. -/
def generateFallbackInterviewQuestions (resumeText : String) (jobTitle : Option String)
    (prof : ExtractedProfile) : List InterviewQuestion :=
  let text := strLower resumeText
  let jt := jobTitleOr jobTitle
  let companyQs : List InterviewQuestion :=
    if 0 < prof.companies.length
        && prof.companies.headI ≠ "No specific company identified" then
      ((prof.companies.take 2).map fun c =>
        { category := "Behavioral"
          question := s!"During your time at {c}, what was the most significant challenge you faced and how did you overcome it?"
          tips := ["Use the STAR method (Situation, Task, Action, Result)",
                   "Focus on a specific project or initiative",
                   "Highlight your problem-solving approach"]
          resume_context := some s!"Work experience at {c} mentioned in resume" })
        ++ (if 2 ≤ prof.companies.length then
            let c0 := prof.companies.headI
            let c1 := (prof.companies.drop 1).headI
            [{ category := "Leadership"
               question := s!"How would you compare the team cultures at {c0} and {c1}? What leadership approaches were most effective in each environment?"
               tips := ["Compare and contrast specific aspects of each company culture",
                        "Discuss how you adapted your working style to each environment",
                        "Highlight specific leadership techniques that worked well"]
               resume_context :=
                 some s!"Work experience at both {c0} and {c1} mentioned in resume" }]
          else [])
    else []
  let titleQs : List InterviewQuestion :=
    if 0 < prof.jobTitles.length && prof.jobTitles.headI ≠ "Software Engineer" then
      (prof.jobTitles.take 2).map fun title =>
        if containsStr (strLower title) "senior" || containsStr (strLower title) "lead"
            || containsStr (strLower title) "manager" then
          { category := "Leadership"
            question := s!"As a {title}, describe a situation where you had to make a difficult decision that impacted your team or project. What was your decision-making process?"
            tips := ["Explain the context and constraints you were working with",
                     "Detail your analysis and the factors you considered",
                     "Discuss the outcome and what you learned from the experience"]
            resume_context := some s!"{title} role mentioned in resume" }
        else
          { category := "Role-specific"
            question := s!"In your role as {title}, what was the most innovative solution you implemented and what impact did it have?"
            tips := ["Describe the specific problem you were trying to solve",
                     "Explain what made your solution innovative",
                     "Quantify the results if possible"]
            resume_context := some s!"{title} role mentioned in resume" }
    else []
  let skillQs : List InterviewQuestion :=
    if 0 < prof.skills.length then
      let programmingLanguages := prof.skills.filter (fun skill =>
        fallbackLanguageTerms.any (fun lang => containsStr (strLower skill) lang))
      let frameworks := prof.skills.filter (fun skill =>
        fallbackFrameworkTerms.any (fun fw => containsStr (strLower skill) fw))
      let databases := prof.skills.filter (fun skill =>
        fallbackDatabaseTerms.any (fun db => containsStr (strLower skill) db))
      let cloudTech := prof.skills.filter (fun skill =>
        fallbackCloudTerms.any (fun tech => containsStr (strLower skill) tech))
      (if 0 < programmingLanguages.length then
        let lang := programmingLanguages.headI
        [{ category := "Technical"
           question := s!"You\x27ve listed {lang} as one of your skills. Describe a complex problem you solved using {lang} and explain your approach to the solution."
           tips := ["Provide specific technical details about the implementation",
                    "Explain any libraries or frameworks you utilized",
                    "Discuss performance considerations and trade-offs"]
           resume_context := some s!"{lang} skill mentioned in resume" }] else [])
        ++ (if 0 < frameworks.length then
            let fw := frameworks.headI
            [{ category := "Technical"
               question := s!"How have you leveraged {fw} in your previous projects? What specific features or patterns did you implement?"
               tips := ["Discuss specific components or modules you built",
                        "Explain architectural decisions you made",
                        "Mention any performance optimizations you implemented"]
               resume_context := some s!"{fw} skill mentioned in resume" }] else [])
        ++ (if 0 < databases.length then
            let db := databases.headI
            [{ category := "Technical"
               question := s!"With your experience in {db}, how would you design a database schema for a system that needs to handle high-volume transactions while maintaining data integrity?"
               tips := ["Discuss normalization and denormalization trade-offs",
                        "Explain indexing strategies you would implement",
                        "Address scaling and performance considerations"]
               resume_context := some s!"{db} skill mentioned in resume" }] else [])
        ++ (if 0 < cloudTech.length then
            let tech := cloudTech.headI
            [{ category := "Technical"
               question := s!"Based on your experience with {tech}, how would you design a scalable and resilient architecture for a mission-critical application?"
               tips := ["Discuss specific services or components you would use",
                        "Explain your approach to high availability and disaster recovery",
                        "Address security considerations in your design"]
               resume_context := some s!"{tech} skill mentioned in resume" }] else [])
    else []
  let projQ1 := fun (p : String) =>
    let pn := projectNameOf p
    { category := "Project"
      question := s!"Regarding your {pn} project, what were the most significant technical challenges you faced and how did you overcome them?"
      tips := ["Describe the specific technical problems in detail",
               "Explain your problem-solving process and alternatives you considered",
               "Highlight the technical skills you applied to solve the issues"]
      resume_context := some s!"Project mentioned in resume: {p}" }
  let projQ2 := fun (p : String) =>
    let pn := projectNameOf p
    { category := "Project"
      question := s!"For your {pn} project, how did you approach collaboration with other team members and stakeholders?"
      tips := ["Discuss your communication strategies",
               "Explain how you handled disagreements or conflicting priorities",
               "Highlight your role in ensuring project success through teamwork"]
      resume_context := some s!"Project mentioned in resume: {p}" }
  let projectQs : List InterviewQuestion :=
    if 0 < prof.projects.length
        && prof.projects.headI ≠ "No specific projects identified" then
      match prof.projects.take 2 with
      | [] => []
      | [p0] => [projQ1 p0]
      | p0 :: p1 :: _ => [projQ1 p0, projQ1 p1, projQ2 p1]
    else []
  let leadershipQs : List InterviewQuestion :=
    if containsStr text "lead" || containsStr text "manage" || containsStr text "senior" then
      [{ category := "Leadership"
         question := "How do you prioritize tasks when managing multiple projects?"
         tips := ["Mention specific methodologies (Agile, Kanban)",
                  "Discuss stakeholder communication",
                  "Show understanding of business impact"]
         resume_context := some "Leadership experience mentioned in resume" },
       { category := "Leadership"
         question := "Describe your approach to mentoring junior developers."
         tips := ["Show patience and teaching skills",
                  "Discuss knowledge sharing practices",
                  "Mention code review processes"]
         resume_context := some "Senior/leadership role mentioned in resume" }]
    else []
  let problemQs : List InterviewQuestion :=
    [{ category := "Problem Solving"
       question := "Walk me through how you would debug a performance issue in a web application."
       tips := ["Start with gathering information and metrics",
                "Mention specific tools (Chrome DevTools, profilers)",
                "Show systematic problem-solving approach"]
       resume_context := some "Technical troubleshooting skills implied in resume" },
     { category := "Problem Solving"
       question := "How would you approach learning a new technology or framework?"
       tips := ["Show continuous learning mindset",
                "Mention documentation, tutorials, and practice projects",
                "Discuss how you stay updated with industry trends"]
       resume_context := some "Technical adaptability implied from resume skills" }]
  let transitionQs : List InterviewQuestion :=
    if 0 < prof.jobTitles.length && prof.jobTitles.headI ≠ "Software Engineer" then
      let t0 := prof.jobTitles.headI
      [{ category := "Role-Specific"
         question := s!"How has your experience as a {t0} prepared you for this {jt} role?"
         tips := ["Highlight transferable skills",
                  "Discuss relevant accomplishments",
                  "Show career progression"]
         resume_context := some s!"Previous job title in resume: {t0}" }]
    else []
  let whyQs : List InterviewQuestion :=
    [{ category := "Role-Specific"
       question := s!"Why are you interested in this {jt} position?"
       tips := ["Research the company and role thoroughly",
                "Connect your experience to their needs",
                "Show enthusiasm for their mission/products"]
       resume_context := some s!"Based on target job title: {jt}" }]
  (companyQs ++ titleQs ++ skillQs ++ projectQs ++ leadershipQs ++ problemQs
    ++ transitionQs ++ whyQs).take 10

/-- Outcome of the interview-questions AI call. -/
inductive QuestionsAI where
  /-- The fetch failed; the wrapper's canned content parses to an object
  without a `questions` field, so the caller sees an empty question list. -/
  | fetchFail : QuestionsAI
  /-- The message content was empty or the response shape unreadable. -/
  | emptyContent : QuestionsAI
  /-- The message content failed to parse as JSON. -/
  | parseFail : QuestionsAI
  /-- The parsed object, with `none` for an absent `questions` field. -/
  | parsed : Option (List InterviewQuestion) → QuestionsAI

/-- `OpenAIService.generateInterviewQuestions`.  On the branch that pads a
short accepted result (fewer than ten questions) the source reads
`.questions` off the un-awaited promise of the fallback generator, which
throws, and the outer catch returns the fallback generator's output, so that
branch also produces the fallback list. -/
def generateInterviewQuestions (resumeText : String) (jobTitle : Option String)
    (prof : ExtractedProfile) (ai : QuestionsAI) : List InterviewQuestion :=
  if hasValidData prof then
    match ai with
    | .fetchFail => generateFallbackInterviewQuestions resumeText jobTitle prof
    | .emptyContent => generateFallbackInterviewQuestions resumeText jobTitle prof
    | .parseFail => generateFallbackInterviewQuestions resumeText jobTitle prof
    | .parsed questionsOpt =>
      let questions := questionsOpt.getD []
      if questions.isEmpty then generateFallbackInterviewQuestions resumeText jobTitle prof
      else
        let personalizedQuestions := questions.filter (isPersonalized prof)
        if (personalizedQuestions.length : ℚ) < (questions.length : ℚ) * (7/10) then
          generateFallbackInterviewQuestions resumeText jobTitle prof
        else
          let enhancedQuestions := questions.map enhanceQuestion
          if enhancedQuestions.length < 10 then
            generateFallbackInterviewQuestions resumeText jobTitle prof
          else
            enhancedQuestions.take 15
  else generateFallbackInterviewQuestions resumeText jobTitle prof

/-! ### EntityExtractor (`extractJobTitles` and friends)

Each extractor sends a prompt through `callMoonshotAPI` and then reads
`response.choices[0].message.content`.  Because the wrapper never rejects,
the extractor's own catch branch (holding the section-aware heuristic and
its non-empty default) runs only when reading that shape throws; a failed
fetch instead yields the canned content-analysis object, which parses as a
non-array and makes the extractor return the empty list. -/

/-- The message content of an extractor's AI call, as far as the parsing
logic distinguishes. -/
inductive ContentKind where
  /-- Valid JSON that is an array of strings. -/
  | jsonArr : List String → ContentKind
  /-- Valid JSON that is not an array (for instance the canned object). -/
  | jsonNonArray : ContentKind
  /-- Non-JSON text embedding a `[...]` span that parses to an array
  (recovered by the inner `match(/\[.*\]/s)` rescue where one exists). -/
  | proseWithArr : List String → ContentKind
  /-- Non-JSON text with no parseable array span. -/
  | junk : ContentKind

/-- Outcome of an extractor's AI call. -/
inductive ExtractorAI where
  /-- The fetch failed; the wrapper substituted the canned content object. -/
  | fetchFail : ExtractorAI
  /-- Reading `choices[0].message.content` off the response threw, reaching
  the extractor's catch branch. -/
  | shapeError : ExtractorAI
  /-- The message content was read successfully. -/
  | content : ContentKind → ExtractorAI

/-! #### Job-title fallback heuristic -/

def commonTitles : List String :=
  ["software engineer", "developer", "programmer", "architect", "designer",
   "manager", "director", "analyst", "consultant", "specialist", "lead",
   "administrator", "devops", "full stack", "frontend", "backend", "data scientist",
   "engineer", "technician", "coordinator", "supervisor", "head of", "chief",
   "cto", "ceo", "cfo", "vp", "vice president", "president", "founder",
   "intern", "assistant", "associate", "senior", "junior", "principal",
   "project manager", "product manager", "program manager", "scrum master"]

/-- First pass over the lines: detect the start of the experience section
and the index of the next canonical section header after it (`none` when the
loop runs to the end without a break). -/
def expSectionScan : Bool → Nat → List String → Bool × Option Nat
  | inSec, _, [] => (inSec, none)
  | inSec, i, ln :: rest =>
    let lower := strLower (jsTrim ln)
    if !inSec && (containsStr lower "experience" || containsStr lower "employment"
        || containsStr lower "work history") then
      expSectionScan true (i + 1) rest
    else if inSec && (containsStr lower "education" || containsStr lower "skills"
        || containsStr lower "projects" || containsStr lower "certifications") then
      (true, some i)
    else expSectionScan inSec (i + 1) rest

/-- `/20\d\d|19\d\d/.test(line)`. -/
def yearTest (s : String) : Bool :=
  anySuffix (fun l =>
    match l with
    | a :: b :: c :: d :: _ =>
      ((a = '2' && b = '0') || (a = '1' && b = '9')) && isDigitChar c && isDigitChar d
    | _ => false) s.data

/-- Match of the date-range pattern at the head (on lowercased characters,
for the `i` flag). -/
def dateRangeAt (l : List Char) : Bool :=
  match takeDigits 4 l with
  | none => false
  | some r1 =>
    let r2 := r1.dropWhile isJsWs
    let afterSep : Option (List Char) :=
      match r2 with
      | '-' :: t => some t
      | 't' :: 'o' :: t => some t
      | '–' :: t => some t
      | _ => none
    match afterSep with
    | none => false
    | some r3 =>
      let r4 := r3.dropWhile isJsWs
      (takeDigits 4 r4).isSome || startsSeq "present".data r4
        || startsSeq "current".data r4 || startsSeq "now".data r4

/-- Test of `/\d{4}\s*(-|to|–)\s*\d{4}|\d{4}\s*(-|to|–)\s*(present|current|now)/i`. -/
def dateRangeTest (s : String) : Bool := anySuffix dateRangeAt (strLower s).data

/-- `/^[A-Z][a-z]+ [A-Z][a-z]+/.test(line)`: the greedy lowercase run must
be followed by the literal space, so it is the maximal run. -/
def upperPairTest : List Char → Bool
  | c0 :: rest =>
    isUpperLetter c0
      && 0 < (rest.takeWhile isLowerLetter).length
      && (match rest.dropWhile isLowerLetter with
          | ' ' :: c1 :: rest2 =>
            isUpperLetter c1 && 0 < (rest2.takeWhile isLowerLetter).length
          | _ => false)
  | [] => false

/-- Index of the first occurrence of `pat` (callers guarantee containment). -/
def indexOfSeq (pat : List Char) : List Char → Nat
  | [] => 0
  | l@(_ :: rest) => if startsSeq pat l then 0 else indexOfSeq pat rest + 1

/-- Remove from the leftmost position where `hit` fires to the end, together
with the run of whitespace directly before it (the `\s*` prefix of the
removal patterns); leave the list unchanged when `hit` never fires. -/
def cutScan (hit : List Char → Bool) : List Char → List Char → List Char
  | acc, [] => acc.reverse
  | acc, l@(c :: rest) =>
    if hit l then (acc.dropWhile isJsWs).reverse
    else cutScan hit (c :: acc) rest

/-- Second pass of the job-title fallback: collect potential titles, with
the common-title surgery of the source. -/
def titlesPass (expFlag : Bool) (endIdx : Nat) : Nat → List String → List String → List String
  | _, acc, [] => acc
  | i, acc, ln :: rest =>
    let line := jsTrim ln
    if line.length = 0 then titlesPass expFlag endIdx (i + 1) acc rest
    else
      let lowercaseLine := strLower line
      let inExperienceSection := expFlag && i < endIdx
      let hasTitle := commonTitles.any (fun t => containsStr lowercaseLine t)
      let hasYear := yearTest line
      let hasDateRange := dateRangeTest line
      let isPotentialTitle := line.length < 100
        && (hasTitle || upperPairTest line.data
            || containsStr (strLower line) "position" || containsStr (strLower line) "title"
            || containsStr (strLower line) "role")
      if isPotentialTitle || (inExperienceSection && (hasYear || hasDateRange)) then
        let extractedTitle :=
          match commonTitles.find? (fun t => containsStr lowercaseLine t) with
          | none => line
          | some t =>
            let titleIndex := indexOfSeq t.data lowercaseLine.data
            let startIndex := titleIndex - 10
            let endIndex := min line.length (titleIndex + t.length + 20)
            let sub := (line.data.drop startIndex).take (endIndex - startIndex)
            let s1 := sub.dropWhile (fun c => !isAsciiLetter c)
            let s2 := cutScan (fun l =>
              match l with
              | a :: b :: c :: d :: _ =>
                isDigitChar a && isDigitChar b && isDigitChar c && isDigitChar d
              | _ => false) [] s1
            let s3 := cutScan (fun l =>
              match l with
              | 'a' :: 't' :: c :: _ => isJsWs c
              | _ => false) [] s2
            let s4 := cutScan (fun l => match l with | '|' :: _ => true | _ => false) [] s3
            let s5 := cutScan (fun l => match l with | '-' :: _ => true | _ => false) [] s4
            jsTrim ⟨s5⟩
        if extractedTitle ≠ "" && !acc.contains extractedTitle
            && 3 < extractedTitle.length && extractedTitle.length < 50 then
          titlesPass expFlag endIdx (i + 1) (acc ++ [extractedTitle]) rest
        else titlesPass expFlag endIdx (i + 1) acc rest
      else titlesPass expFlag endIdx (i + 1) acc rest

/-- The catch-branch heuristic of `extractJobTitles`, with its non-empty
default. -/
def fallbackJobTitles (text : String) : List String :=
  let lines := jsLines text
  let scan := expSectionScan false 0 lines
  let titles := titlesPass scan.1 (scan.2.getD lines.length) 0 [] lines
  if titles.length = 0 then ["Software Engineer"] else titles

/-! #### Company fallback heuristic -/

/-- The class `[\w\s&]`. -/
def companyClass (c : Char) : Bool := isWordChar c || isJsWs c || c = '&'

def companySuffixes : List String :=
  ["Inc", "LLC", "Ltd", "Corp", "Company", "Technologies", "Solutions"]

/-- Backtracking search of the third alternative
`[A-Z][\w\s&]+(Inc|LLC|...)`: the greedy class run releases characters from
the right until one of the suffixes matches, tried in source order at each
length. -/
def companyAlt3Search (c : Char) (rest : List Char) : Nat → Option (List Char)
  | 0 => none
  | len + 1 =>
    let after := rest.drop (len + 1)
    match companySuffixes.find? (fun sfx => startsSeq sfx.data after) with
    | some sfx => some (c :: rest.take (len + 1) ++ sfx.data)
    | none => companyAlt3Search c rest len

/-- `\bat\s+([A-Z][\w\s&]+)` (or `for`), anchored here; returns the capture. -/
def companyPrepAlt (word : List Char) (prev : Option Char) (l : List Char) :
    Option (List Char) :=
  if startsSeq word l && !wOpt prev then
    let r0 := l.drop word.length
    let wsRun := r0.takeWhile isJsWs
    if 1 ≤ wsRun.length then
      match r0.dropWhile isJsWs with
      | c :: r2 =>
        if isUpperLetter c then
          let run := r2.takeWhile companyClass
          if 1 ≤ run.length then some (c :: run) else none
        else none
      | [] => none
    else none
  else none

/-- The three alternatives of the company pattern at one position, in
source order; the value is `(match[1] || match[2] || match[3])`. -/
def companyAltCapture (prev : Option Char) (l : List Char) : Option (List Char) :=
  match companyPrepAlt "at".data prev l with
  | some cap => some cap
  | none =>
    match companyPrepAlt "for".data prev l with
    | some cap => some cap
    | none =>
      match l with
      | c :: rest =>
        if isUpperLetter c then
          companyAlt3Search c rest (rest.takeWhile companyClass).length
        else none
      | [] => none

/-- Leftmost match of the company pattern over a line. -/
def companyScan : Option Char → List Char → Option (List Char)
  | _, [] => none
  | prev, l@(c :: rest) =>
    match companyAltCapture prev l with
    | some cap => some cap
    | none => companyScan (some c) rest

/-- The catch-branch heuristic of `extractCompanies`, with its non-empty
default. -/
def fallbackCompanies (text : String) : List String :=
  let lines := jsLines text
  let companies := lines.foldl (fun acc line =>
    match companyScan none line.data with
    | none => acc
    | some cap =>
      let company := jsTrim ⟨cap⟩
      if company ≠ "" && !acc.contains company
          && 2 < company.length && company.length < 50 then
        acc ++ [company]
      else acc) []
  if companies.length = 0 then ["previous company"] else companies

/-! #### Skills fallback heuristic -/

def commonSkills : List String :=
  ["javascript", "typescript", "python", "java", "c#", "c++", "c", "ruby", "php",
   "swift", "kotlin", "go", "rust", "scala", "perl", "r", "matlab", "bash",
   "powershell", "shell", "objective-c", "dart", "groovy", "lua",
   "html", "css", "sass", "less", "bootstrap", "tailwind", "material-ui", "jquery",
   "ajax", "json", "xml", "webpack", "babel", "eslint", "prettier", "npm", "yarn",
   "pnpm", "vite", "parcel",
   "react", "angular", "vue", "svelte", "ember", "backbone", "next.js", "nuxt",
   "gatsby", "redux", "mobx", "recoil", "zustand", "context api", "hooks",
   "node", "express", "koa", "fastify", "nest.js", "django", "flask", "spring",
   "spring boot", "asp.net", ".net core", ".net framework", "laravel", "symfony",
   "rails", "phoenix",
   "sql", "nosql", "mongodb", "postgresql", "mysql", "oracle", "sqlite", "firebase",
   "dynamodb", "cassandra", "redis", "elasticsearch", "neo4j", "couchdb", "mariadb",
   "aws", "azure", "gcp", "docker", "kubernetes", "jenkins", "ci/cd", "github actions",
   "gitlab ci", "travis ci", "circle ci", "terraform", "ansible", "puppet", "chef",
   "serverless", "lambda", "ec2", "s3", "rds", "ecs", "eks", "fargate",
   "agile", "scrum", "kanban", "waterfall", "lean", "jira", "trello", "asana",
   "confluence", "git", "github", "gitlab", "bitbucket", "svn", "mercurial",
   "machine learning", "ai", "artificial intelligence", "data science", "big data",
   "analytics", "tensorflow", "pytorch", "keras", "scikit-learn", "pandas", "numpy",
   "scipy", "hadoop", "spark", "kafka", "tableau", "power bi", "looker", "dbt",
   "rest", "graphql", "soap", "microservices", "soa", "grpc", "websocket",
   "mvc", "mvvm", "event-driven", "domain-driven", "tdd", "bdd",
   "android", "ios", "react native", "flutter", "xamarin", "ionic", "cordova",
   "swift ui", "kotlin multiplatform", "jetpack compose",
   "unit testing", "integration testing", "e2e testing", "jest", "mocha", "chai",
   "jasmine", "karma", "cypress", "selenium", "puppeteer", "playwright",
   "leadership", "communication", "teamwork", "problem solving", "critical thinking",
   "time management", "project management", "mentoring", "collaboration"]

def skillVariations : List (String × List String) :=
  [("javascript", ["js"]), ("typescript", ["ts"]), ("python", ["py"]),
   ("react", ["reactjs", "react.js"]), ("node", ["nodejs", "node.js"]),
   ("express", ["expressjs", "express.js"]), ("next.js", ["nextjs"]),
   ("vue", ["vuejs", "vue.js"]), ("angular", ["angularjs", "angular.js"]),
   ("continuous integration", ["ci"]), ("continuous deployment", ["cd"]),
   ("amazon web services", ["aws"]), ("google cloud platform", ["gcp"]),
   ("microsoft azure", ["azure"]), ("postgresql", ["postgres"]),
   ("mongodb", ["mongo"]), ("kubernetes", ["k8s"]),
   ("artificial intelligence", ["ai"]), ("machine learning", ["ml"]),
   ("test driven development", ["tdd"]), ("behavior driven development", ["bdd"])]

/-- Push to the end unless already present. -/
def pushUnique (acc : List String) (s : String) : List String :=
  if acc.contains s then acc else acc ++ [s]

/-- `commonSkills` after the variation-expansion loop of the source. -/
def extendedCommonSkills : List String :=
  skillVariations.foldl (fun acc p => p.2.foldl pushUnique (pushUnique acc p.1)) commonSkills

def isSkillSep (c : Char) : Bool := c = ',' || c = '•' || c = '·' || c = '-'

/-- `line.split(/[,•·\-]/g)`. -/
def splitSepFrags (l : List Char) : List (List Char) := splitCharFrags isSkillSep l

/-- The skills-section pass of the skills fallback. -/
def skillsSectionPass : Bool → List String → List String → List String
  | _, acc, [] => acc
  | inSec, acc, ln :: rest =>
    let line := jsTrim ln
    let lowerLine := strLower line
    if !inSec && (containsStr lowerLine "skills" || containsStr lowerLine "technologies"
        || containsStr lowerLine "technical proficiencies") then
      skillsSectionPass true acc rest
    else if inSec && (containsStr lowerLine "experience" || containsStr lowerLine "education"
        || containsStr lowerLine "projects" || containsStr lowerLine "certifications") then
      acc
    else if inSec && (containsStr line "," || containsStr line "•"
        || containsStr line "·" || containsStr line "-") then
      let skillCandidates := ((splitSepFrags line.data).map (fun l => jsTrim ⟨l⟩)).filter
        (fun s => 0 < s.length)
      let acc2 := skillCandidates.foldl (fun a candidate =>
        if 2 < candidate.length && candidate.length < 30 && !a.contains candidate then
          a ++ [candidate]
        else a) acc
      skillsSectionPass true acc2 rest
    else skillsSectionPass inSec acc rest

/-- The catch-branch heuristic of `extractSkills`, with its non-empty
default.  (The `normalizedSkill` computation of the source is the identity
and is omitted.) -/
def fallbackSkills (text : String) : List String :=
  let lowerText := strLower text
  let lines := jsLines text
  let sectionSkills := skillsSectionPass false [] lines
  let skills := extendedCommonSkills.foldl (fun a skill =>
    if containsStr lowerText (strLower skill) && !a.contains skill then a ++ [skill]
    else a) sectionSkills
  if skills.length = 0 then ["programming", "development"] else skills

/-! #### Achievements fallback heuristic -/

def achievementTerms : List String :=
  ["increased", "improved", "reduced", "saved", "delivered", "implemented",
   "launched", "led", "managed", "created", "developed"]

/-- Test of the achievement-indicator alternation on the lowercased line. -/
def achievementLineTest (lowerLine : String) : Bool :=
  achievementTerms.any (fun t => containsStr lowerLine t)
    || anySuffix (fun l =>
      match l with
      | a :: b :: _ => isDigitChar a && b = '%'
      | _ => false) lowerLine.data
    || anySuffix (fun l =>
      match l with
      | a :: b :: _ => a = '$' && isDigitChar b
      | _ => false) lowerLine.data
    || anySuffix (fun l =>
      match l with
      | a :: rest => isDigitChar a && startsSeq " users".data rest
      | _ => false) lowerLine.data
    || anySuffix (fun l =>
      match l with
      | a :: rest => isDigitChar a && startsSeq " customers".data rest
      | _ => false) lowerLine.data

/-- The catch-branch heuristic of `extractAchievements`, with its non-empty
default. -/
def fallbackAchievements (text : String) : List String :=
  let lines := jsLines text
  let achievements := lines.foldl (fun a line =>
    if achievementLineTest (strLower line) then
      if 20 < line.length && line.length < 200 && !a.contains (jsTrim line) then
        a ++ [jsTrim line]
      else a
    else a) []
  if achievements.length = 0 then ["past achievement or project"] else achievements

/-! #### Projects fallback heuristic -/

def startsWithStr (s pre : String) : Bool := startsSeq pre.data s.data

def endsWithStr (s suf : String) : Bool := startsSeq suf.data.reverse s.data.reverse

/-- `line.replace(/:$/, '')`. -/
def stripTrailingColon (s : String) : String :=
  match s.data.reverse with
  | ':' :: rest => ⟨rest.reverse⟩
  | _ => s

structure P1State where
  inSec : Bool
  cur : String
  desc : String
  projects : List String

/-- Save the in-progress project of the projects-section pass. -/
def saveCurrentProject (st : P1State) : List String :=
  if st.cur ≠ "" then
    let fullProject := if 0 < st.desc.length then st.cur ++ ": " ++ st.desc else st.cur
    if st.projects.contains fullProject then st.projects else st.projects ++ [fullProject]
  else st.projects

/-- First pass of the projects fallback: walk the projects section tracking
a current project title and its accumulating description.  An in-progress
project is saved only when the section-end break fires, as in the source. -/
def projectsPass1 : P1State → List String → List String
  | st, [] => st.projects
  | st, ln :: rest =>
    let line := jsTrim ln
    if line.length = 0 then projectsPass1 st rest
    else
      let lowerLine := strLower line
      if !st.inSec && containsStr lowerLine "project"
          && (startsWithStr lowerLine "project" || endsWithStr lowerLine "project"
              || endsWithStr lowerLine "projects"
              || containsStr lowerLine "project experience") then
        projectsPass1 { st with inSec := true } rest
      else if st.inSec && (containsStr lowerLine "experience"
          || containsStr lowerLine "education" || containsStr lowerLine "skills"
          || containsStr lowerLine "certifications") then
        saveCurrentProject st
      else if st.inSec then
        let isPotentialProjectTitle := line.length < 80
          && (endsWithStr line ":"
              || (match line.data with | c :: _ => isUpperLetter c | [] => false)
              || containsStr line "project" || containsStr line "app"
              || containsStr line "system" || containsStr line "platform"
              || containsStr line "website" || containsStr line "application")
        if isPotentialProjectTitle then
          let projects2 := saveCurrentProject st
          projectsPass1
            { inSec := true, cur := jsTrim (stripTrailingColon line), desc := ""
              projects := projects2 } rest
        else if st.cur ≠ "" then
          if st.desc.length = 0 then projectsPass1 { st with desc := line } rest
          else if st.desc.length < 100 then
            projectsPass1 { st with desc := st.desc ++ " " ++ line } rest
          else projectsPass1 st rest
        else projectsPass1 st rest
      else projectsPass1 st rest

/-- `lines.indexOf(line)`: -1 when the (trimmed) line does not occur
verbatim among the raw lines. -/
def jsIndexOfStr (lines : List String) (s : String) : Int :=
  match lines.findIdx? (fun x => x = s) with
  | some i => (i : Int)
  | none => -1

/-- Second pass of the projects fallback: whole-document scan for project
indicator lines; a short line pulls in the following line as context, where
"following" is computed with `lines.indexOf` on the trimmed line (so a line
that was trimmed, or occurs earlier, resolves to the wrong index, as in the
source). -/
def projectsPass2 (lines : List String) (acc0 : List String) : List String :=
  lines.foldl (fun acc ln =>
    let line := jsTrim ln
    if line.length = 0 || 150 < line.length then acc
    else
      let lowerLine := strLower line
      if (containsStr lowerLine "project" || containsStr lowerLine "developed"
          || containsStr lowerLine "created" || containsStr lowerLine "built"
          || containsStr lowerLine "implemented" || containsStr lowerLine "designed"
          || containsStr lowerLine "architected")
          && 15 < line.length && line.length < 150 then
        let idx := jsIndexOfStr lines line
        let projectInfo :=
          if line.length < 50 && idx < (lines.length : Int) - 1 then
            let nextLine := lines.getD (idx + 1).toNat ""
            if nextLine ≠ "" && 0 < (jsTrim nextLine).length
                && !containsStr (strLower nextLine) "project" then
              line ++ ": " ++ jsTrim nextLine
            else line
          else line
        if acc.contains projectInfo then acc else acc ++ [projectInfo]
      else acc) acc0

/-- `/^\d+\./.test(line)`. -/
def digitsThenDot (l : List Char) : Bool :=
  let ds := l.takeWhile isDigitChar
  1 ≤ ds.length && (l.drop ds.length).head? = some '.'

def isBulletStart (line : String) : Bool :=
  startsWithStr line "•" || startsWithStr line "-" || startsWithStr line "*"
    || digitsThenDot line.data

/-- The class `[•\-*\d\.]` of the bullet-stripping pattern. -/
def bulletClassChar (c : Char) : Bool :=
  c = '•' || c = '-' || c = '*' || isDigitChar c || c = '.'

structure P3State where
  inBulletList : Bool
  ctx : String
  bullets : List String

/-- Third pass of the projects fallback: bullet points describing projects,
with the preceding line as context when a bullet list starts. -/
def projectsPass3 (projects : List String) :
    Option String → P3State → List String → List String
  | _, st, [] => st.bullets
  | prevRaw, st, ln :: rest =>
    let line := jsTrim ln
    if line.length = 0 then projectsPass3 projects (some ln) st rest
    else if isBulletStart line then
      let ctx :=
        if !st.inBulletList then
          match prevRaw with
          | some p => jsTrim p
          | none => st.ctx
        else st.ctx
      let cleanedLine := jsTrim ⟨(line.data.dropWhile bulletClassChar).dropWhile isJsWs⟩
      let bullets2 :=
        if 15 < cleanedLine.length
            && (containsStr cleanedLine "project" || containsStr cleanedLine "developed"
              || containsStr cleanedLine "created" || containsStr cleanedLine "built"
              || containsStr cleanedLine "implemented" || containsStr cleanedLine "designed"
              || containsStr cleanedLine "application" || containsStr cleanedLine "system"
              || containsStr cleanedLine "platform") then
          let projectEntry :=
            if ctx ≠ "" && 0 < ctx.length && ctx.length < 80
                && !projects.contains (ctx ++ ": " ++ cleanedLine) then
              ctx ++ ": " ++ cleanedLine
            else cleanedLine
          if st.bullets.contains projectEntry then st.bullets else st.bullets ++ [projectEntry]
        else st.bullets
      projectsPass3 projects (some ln) { inBulletList := true, ctx := ctx, bullets := bullets2 } rest
    else if st.inBulletList then
      projectsPass3 projects (some ln) { inBulletList := false, ctx := "", bullets := st.bullets } rest
    else projectsPass3 projects (some ln) st rest

/-- Case-insensitive anchored comparison against a lowercase pattern. -/
def startsSeqCI : List Char → List Char → Bool
  | [], _ => true
  | _ :: _, [] => false
  | a :: as, b :: bs => a = b.toLower && startsSeqCI as bs

def repoClass (c : Char) : Bool := isWordChar c || c = '-'

/-- Match of `/github\.com\/[\w-]+\/([\w-]+)/i` at the head; returns the
captured repository name. -/
def githubAt (l : List Char) : Option (List Char) :=
  if startsSeqCI "github.com/".data l then
    let r := l.drop 11
    let run1 := r.takeWhile repoClass
    if 1 ≤ run1.length && (r.drop run1.length).head? = some '/' then
      let r2 := r.drop (run1.length + 1)
      let run2 := r2.takeWhile repoClass
      if 1 ≤ run2.length then some run2 else none
    else none
  else none

/-- Leftmost match of the repository pattern. -/
def githubScan : List Char → Option (List Char)
  | [] => none
  | l@(_ :: rest) =>
    match githubAt l with
    | some cap => some cap
    | none => githubScan rest

/-- `replace(/([a-z])([A-Z])/g, '$1 $2')`. -/
def camelSplit : List Char → List Char
  | [] => []
  | [c] => [c]
  | a :: b :: rest =>
    if isLowerLetter a && isUpperLetter b then a :: ' ' :: camelSplit (b :: rest)
    else a :: camelSplit (b :: rest)

def capitalizeFirst (s : String) : String :=
  match s.data with
  | [] => ""
  | c :: rest => ⟨c.toUpper :: rest⟩

/-- Fourth pass of the projects fallback: repository and portfolio links,
with the humanized GitHub project name. -/
def projectsPass4 (lines : List String) (acc0 : List String) : List String :=
  lines.foldl (fun acc ln =>
    let line := jsTrim ln
    if line.length = 0 then acc
    else if (containsStr line "github.com" || containsStr line "gitlab.com"
        || containsStr (strLower line) "repository"
        || containsStr (strLower line) "portfolio") && line.length < 150 then
      let repoInfo :=
        match githubScan line.data with
        | some cap =>
          let repoName : String :=
            ⟨camelSplit (cap.map (fun c => if c = '-' then ' ' else c))⟩
          "GitHub Project: " ++ capitalizeFirst repoName
        | none => line
      if acc.contains repoInfo then acc else acc ++ [repoInfo]
    else acc) acc0

/-- The catch-branch heuristic of `extractProjects`, with its non-empty
default. -/
def fallbackProjects (text : String) : List String :=
  let lines := jsLines text
  let p1 := projectsPass1 { inSec := false, cur := "", desc := "", projects := [] } lines
  let p2 := projectsPass2 lines p1
  let bullets := projectsPass3 p2 none { inBulletList := false, ctx := "", bullets := [] } lines
  let p3 := bullets.foldl (fun a b => if a.contains b then a else a ++ [b]) p2
  let p4 := projectsPass4 lines p3
  if p4.length = 0 then ["No specific projects identified"] else p4

/-! #### The five extractors with their response routing -/

/-- `OpenAIService.extractJobTitles` (inner JSON rescue present). -/
def extractJobTitles (text : String) : ExtractorAI → List String
  | .fetchFail => []
  | .shapeError => fallbackJobTitles text
  | .content (.jsonArr xs) => xs
  | .content .jsonNonArray => []
  | .content (.proseWithArr xs) => xs
  | .content .junk => []

/-- `OpenAIService.extractCompanies` (no inner rescue: unparsable content
throws into the catch branch). -/
def extractCompanies (text : String) : ExtractorAI → List String
  | .fetchFail => []
  | .shapeError => fallbackCompanies text
  | .content (.jsonArr xs) => xs
  | .content .jsonNonArray => []
  | .content (.proseWithArr _) => fallbackCompanies text
  | .content .junk => fallbackCompanies text

/-- `OpenAIService.extractSkills` (inner JSON rescue present). -/
def extractSkills (text : String) : ExtractorAI → List String
  | .fetchFail => []
  | .shapeError => fallbackSkills text
  | .content (.jsonArr xs) => xs
  | .content .jsonNonArray => []
  | .content (.proseWithArr xs) => xs
  | .content .junk => []

/-- `OpenAIService.extractAchievements` (no inner rescue). -/
def extractAchievements (text : String) : ExtractorAI → List String
  | .fetchFail => []
  | .shapeError => fallbackAchievements text
  | .content (.jsonArr xs) => xs
  | .content .jsonNonArray => []
  | .content (.proseWithArr _) => fallbackAchievements text
  | .content .junk => fallbackAchievements text

/-- `OpenAIService.extractProjects` (inner JSON rescue present). -/
def extractProjects (text : String) : ExtractorAI → List String
  | .fetchFail => []
  | .shapeError => fallbackProjects text
  | .content (.jsonArr xs) => xs
  | .content .jsonNonArray => []
  | .content (.proseWithArr xs) => xs
  | .content .junk => []

/-! ### Claim-side formulas and concrete instances -/

/-- The overall-score formula asserted by claim C1, following the claim's
words: computed from the `keywordScore` field carried by the report itself,
with a +5 bonus, capped at 100, when at least 80% of the keywords matched. -/
def atsScoreClaimFormula (r : Report) : ℤ :=
  let base := jsRound ((r.formatScore : ℚ) * (25/100) + r.contentScore * (35/100)
    + r.keywordScore * (40/100))
  let total := r.keywordMatches.length + r.missingKeywords.length
  if 0 < total ∧ (8/10 : ℚ) ≤ (r.keywordMatches.length : ℚ) / (total : ℚ) then
    min 100 (base + 5)
  else base

/-- The keyword score the aggregation actually uses, recomputed from the
lists the report carries (`dynamicKeywordScore` of the source). -/
def reportDynScore (r : Report) : ℚ :=
  let total := r.keywordMatches.length + r.missingKeywords.length
  if 0 < total then
    ((jsRound ((r.keywordMatches.length : ℚ) / (total : ℚ) * 100) : ℤ) : ℚ)
  else r.keywordScore

/-- Concrete report for the C1 counterexample: one matched keyword, none
missing, and an AI-provided keyword score of 50. -/
def c1Report : Report :=
  analyzeResumeWithJob "" "" .fetchFail (.parsed ⟨some ["skill"], some [], some 50, some []⟩)

/-- Concrete report for the C2 counterexample: the AI returns the
non-integer content score one half. -/
def c2Report : Report :=
  analyzeResumeWithJob "" "" (.parsed ⟨some (1/2), none, none⟩) .fetchFail

/-- Twelve distinct long words, none present in the résumé `"zzz"`, for the
C6 counterexample. -/
def c6JobDesc : String :=
  "alpha bravo charlie delta foxtrot hotel india juliett november oscar victor whiskey"

/-- Nine missing keywords that all pass the partial-match rule. -/
def c7Missing : List String :=
  ["managed", "tested", "builds", "running", "designs", "created", "leading",
   "develops", "trained"]

/-- A résumé containing a whole word beginning with the stem of each entry
of `c7Missing`. -/
def c7Resume : String := "manag test build runn design creat lead develop train"

/-- Extracted profile for the C8 witness. -/
def c8Profile : ExtractedProfile :=
  { jobTitles := ["Data Analyst"], companies := ["Acme Corp"], skills := ["python"]
    achievements := [], projects := ["Inventory Tracker: warehouse tool"] }

/-- Twelve AI-returned questions of which exactly five reference the
extracted entities of `c8Profile`. -/
def c8Questions : List InterviewQuestion :=
  [{ category := "Technical", question := "Tell me about your python experience.", tips := [], resume_context := none },
   { category := "Behavioral", question := "What challenges did you face at Acme Corp?", tips := [], resume_context := none },
   { category := "Experience", question := "Describe your role as a Data Analyst.", tips := [], resume_context := none },
   { category := "Project-based", question := "How was the Inventory Tracker built?", tips := [], resume_context := none },
   { category := "Technical", question := "Why did you choose python for your stack?", tips := [], resume_context := none },
   { category := "Behavioral", question := "Tell me about yourself.", tips := [], resume_context := none },
   { category := "Behavioral", question := "What are your strengths?", tips := [], resume_context := none },
   { category := "Behavioral", question := "Where do you see yourself in five years?", tips := [], resume_context := none },
   { category := "Behavioral", question := "Why do you want this job?", tips := [], resume_context := none },
   { category := "Behavioral", question := "Describe a conflict you resolved.", tips := [], resume_context := none },
   { category := "Behavioral", question := "What motivates you?", tips := [], resume_context := none },
   { category := "Behavioral", question := "How do you handle deadlines?", tips := [], resume_context := none }]

/-! ### Helper lemmas -/

lemma formatDeduction_nonneg (text : String) : 0 ≤ formatDeduction text := by
  unfold formatDeduction
  split_ifs <;> norm_num

lemma formatDeduction_le (text : String) : formatDeduction text ≤ 70 := by
  unfold formatDeduction
  split_ifs <;> norm_num

lemma analyzeFormat_score_eq (text : String) :
    (analyzeFormat text).formatScore = max 0 (100 - formatDeduction text) := by
  unfold analyzeFormat formatDeduction
  ring_nf

lemma analyzeFormat_score_unclamped (text : String) :
    (analyzeFormat text).formatScore = 100 - formatDeduction text := by
  rw [analyzeFormat_score_eq]
  have h := formatDeduction_le text
  omega

lemma analyzeFormat_score_mem (text : String) :
    0 ≤ (analyzeFormat text).formatScore ∧ (analyzeFormat text).formatScore ≤ 100 := by
  rw [analyzeFormat_score_unclamped]
  have h1 := formatDeduction_le text
  have h2 := formatDeduction_nonneg text
  omega

lemma analyzeFormat_issues_length (text : String) :
    (analyzeFormat text).issues.length = formatDeductionCount text := by
  unfold analyzeFormat formatDeductionCount
  simp only [List.length_append, apply_ite (fun l : List String => l.length),
    List.length_singleton, List.length_nil]

lemma analyzeFormat_suggestions_length (text : String) :
    (analyzeFormat text).suggestions.length = formatDeductionCount text := by
  unfold analyzeFormat formatDeductionCount
  simp only [List.length_append, apply_ite (fun l : List String => l.length),
    List.length_singleton, List.length_nil]

lemma clampScore_mem (x : ℚ) : 0 ≤ clampScore x ∧ clampScore x ≤ 100 := by
  constructor
  · exact le_max_left 0 _
  · exact max_le (by norm_num) (min_le_left _ _)

lemma jsRound_mem {q : ℚ} (h0 : 0 ≤ q) (h1 : q ≤ 100) :
    0 ≤ jsRound q ∧ jsRound q ≤ 100 := by
  unfold jsRound
  constructor
  · exact Rat.le_floor.mpr (by push_cast; linarith)
  · by_contra h
    push_neg at h
    have h2 : ((101 : ℤ) : ℚ) ≤ q + 1/2 := Rat.le_floor.mp (by omega)
    push_cast at h2
    linarith


lemma ratioTimes100_mem {m t : ℕ} (hm : m ≤ t) (ht : 0 < t) :
    0 ≤ (m : ℚ) / (t : ℚ) * 100 ∧ (m : ℚ) / (t : ℚ) * 100 ≤ 100 := by
  have htq : (0 : ℚ) < t := by exact_mod_cast ht
  constructor
  · positivity
  · have h1 : (m : ℚ) / (t : ℚ) ≤ 1 := by
      rw [div_le_one htq]; exact_mod_cast hm
    nlinarith

lemma fallbackContentScoreInt_mem (rt : String) :
    0 ≤ fallbackContentScoreInt rt ∧ fallbackContentScoreInt rt ≤ 100 := by
  unfold fallbackContentScoreInt
  split_ifs <;> simp <;> omega

lemma contentScore_mem (rt : String) (c : AICall ContentJson) :
    0 ≤ (analyzeResumeContent rt c).contentScore
      ∧ (analyzeResumeContent rt c).contentScore ≤ 100 := by
  cases c with
  | fetchFail => exact clampScore_mem _
  | parsed j => exact clampScore_mem _
  | parseFail =>
    show 0 ≤ ((fallbackContentScoreInt rt : ℤ) : ℚ) ∧ ((fallbackContentScoreInt rt : ℤ) : ℚ) ≤ 100
    have h := fallbackContentScoreInt_mem rt
    exact ⟨by exact_mod_cast h.1, by exact_mod_cast h.2⟩

lemma fallbackKeywordScore_mem (rt jd : String) :
    0 ≤ (generateFallbackKeywordAnalysis rt jd).keywordScore
      ∧ (generateFallbackKeywordAnalysis rt jd).keywordScore ≤ 100 := by
  unfold generateFallbackKeywordAnalysis
  simp only
  split_ifs with h
  · have hmem := ratioTimes100_mem
      (m := (fallbackMatches rt jd).length)
      (t := (fallbackMatches rt jd).length + (fallbackMissing rt jd).length)
      (Nat.le_add_right _ _) (by omega)
    have hr := jsRound_mem hmem.1 hmem.2
    exact ⟨by exact_mod_cast hr.1, by exact_mod_cast hr.2⟩
  · norm_num

lemma keywordScore_mem (rt jd : String) (k : AICall KeywordJson) :
    0 ≤ (compareWithJobDescription rt jd k).keywordScore
      ∧ (compareWithJobDescription rt jd k).keywordScore ≤ 100 := by
  cases k with
  | fetchFail => exact clampScore_mem _
  | parsed j => exact clampScore_mem _
  | parseFail => exact fallbackKeywordScore_mem rt jd

lemma length_filter_partition {α : Type} (l : List α) (p : α → Bool) :
    (l.filter p).length + (l.filter (fun a => !p a)).length = l.length := by
  induction l with
  | nil => simp
  | cons a t ih =>
    cases h : p a <;> simp [List.filter_cons, h] <;> omega

lemma defaulted_nonempty (l d : List String) (hd : d.isEmpty = false) :
    ((if l.length = 0 then d else l).isEmpty) = false := by
  cases l <;> simp_all

lemma map_text_mk (l : List String) :
    ((l.map (fun kw => ({ text := kw, weight := 7, found := false, status := "partial" }
      : CloudKeyword))).map (fun k => k.text)) = l := by
  induction l with
  | nil => rfl
  | cons a t ih => simp_all

/-! ### Claims -/

set_option maxRecDepth 8000 in
/-- C3: for every input text the format scorer starts at 100 and applies
exactly the five independent deductions (−20 for fewer than three section
keywords, −15 for fewer than five bullet glyphs, −10 each for a missing
email or phone, −15 / −10 for the exclusive word-count checks), each firing
deduction appending one issue and one suggestion, with output
`max(0, 100 − sum)`; Scenario B (no bullets, no email, no phone, word count
50, fewer than three sections) incurs all of 20+15+10+10+15 = 70 and yields
`formatScore = max(0, 100 − 70) = 30`. -/
theorem claim_C3_format_deduction_schedule :
    (∀ text : String,
      (analyzeFormat text).formatScore = max 0 (100 - formatDeduction text)
        ∧ (analyzeFormat text).issues.length = formatDeductionCount text
        ∧ (analyzeFormat text).suggestions.length = formatDeductionCount text)
    ∧ formatDeduction scenarioBText = 70
    ∧ (analyzeFormat scenarioBText).formatScore = max 0 (100 - 70) := by
  refine ⟨fun text => ⟨analyzeFormat_score_eq text, analyzeFormat_issues_length text,
    analyzeFormat_suggestions_length text⟩, by decide, by decide⟩

/-- C10: the two word-count deductions are mutually exclusive, so the total
deduction never exceeds 70, the `max(0, ·)` clamp never binds, and every
format score is at least 30. -/
theorem claim_C10_format_score_floor :
    ∀ text : String,
      (analyzeFormat text).formatScore = 100 - formatDeduction text
        ∧ formatDeduction text ≤ 70
        ∧ 30 ≤ (analyzeFormat text).formatScore := by
  intro text
  have h := formatDeduction_le text
  refine ⟨analyzeFormat_score_unclamped text, h, ?_⟩
  rw [analyzeFormat_score_unclamped]
  omega

/-- C1 (amended): in a with-job analysis the report's `atsScore` equals
`round(formatScore·0.25 + contentScore·0.35 + k·0.40)` where `k` is the
`dynamicKeywordScore` recomputed from the report's own match/missing lists,
falling back to the report's `keywordScore` field only when both lists are
empty; no +5 bonus is applied to the stored score. -/
theorem claim_C1_ats_pure_function :
    ∀ (resumeText jobDescription : String) (c : AICall ContentJson) (k : AICall KeywordJson),
      (analyzeResumeWithJob resumeText jobDescription c k).atsScore
        = jsRound
          (((analyzeResumeWithJob resumeText jobDescription c k).formatScore : ℚ) * (25/100)
            + (analyzeResumeWithJob resumeText jobDescription c k).contentScore * (35/100)
            + reportDynScore (analyzeResumeWithJob resumeText jobDescription c k) * (40/100)) := by
  intro rt jd c k
  rfl

/-- C1 counterexample: with one matched keyword, no missing keyword and an
AI-provided keyword score of 50, the stored `atsScore` is 70 while the
claim's formula (from the report's `keywordScore` field, with the bonus)
gives 55. -/
theorem claim_C1_counterexample :
    c1Report.keywordScore = 50
      ∧ c1Report.atsScore = 70
      ∧ atsScoreClaimFormula c1Report = 55
      ∧ c1Report.atsScore ≠ atsScoreClaimFormula c1Report := by
  have h2 : c1Report.atsScore = 70 := by with_unfolding_all rfl
  have h3 : atsScoreClaimFormula c1Report = 55 := by with_unfolding_all rfl
  exact ⟨by with_unfolding_all rfl, h2, h3, by rw [h2, h3]; decide⟩

/-- C4 (amended): the deterministic heuristic content analysis is returned
exactly when parsing the AI message content throws; its score is base 60
with +15 for quantified markers, +10 for at least five bullets, +10 for at
least 300 words, −5 above 800 words, capped at 100; and the
"Add Quantified Achievements" improvement is present precisely when no
quantified-achievement marker occurs. -/
theorem claim_C4_content_fallback_heuristic :
    ∀ resumeText : String,
      analyzeResumeContent resumeText .parseFail = generateFallbackAnalysis resumeText
        ∧ (generateFallbackAnalysis resumeText).contentScore
          = ((min 100 (60
              + (if hasQuantified (strLower resumeText) then (15 : ℤ) else 0)
              + (if 5 ≤ bulletGlyphCount resumeText then 10 else 0)
              + (if 300 ≤ jsWordCount resumeText then 10 else 0)
              - (if 800 < jsWordCount resumeText then 5 else 0)) : ℤ) : ℚ)
        ∧ (((generateFallbackAnalysis resumeText).improvements.map (fun i => i.title)).contains
            "Add Quantified Achievements") = !(hasQuantified (strLower resumeText)) := by
  intro rt
  refine ⟨rfl, rfl, ?_⟩
  cases h : hasQuantified (strLower rt) <;>
    simp only [generateFallbackAnalysis, h] <;> split_ifs <;> first | rfl | simp_all

/-- C4 counterexample: on a fetch-level AI failure (network error or
non-2xx) the content scorer returns the canned analysis with score 65 and
the single "API Service Unavailable" improvement, not the heuristic result
(which for the empty résumé scores 60 and contains
"Add Quantified Achievements"). -/
theorem claim_C4_counterexample :
    (analyzeResumeContent "" .fetchFail).contentScore = 65
      ∧ (generateFallbackAnalysis "").contentScore = 60
      ∧ ((analyzeResumeContent "" .fetchFail).improvements.map (fun i => i.title))
          = ["API Service Unavailable"]
      ∧ analyzeResumeContent "" .fetchFail ≠ generateFallbackAnalysis "" := by
  have h1 : (analyzeResumeContent "" .fetchFail).contentScore = 65 := by
    with_unfolding_all rfl
  have h2 : (generateFallbackAnalysis "").contentScore = 60 := by
    with_unfolding_all rfl
  refine ⟨h1, h2, by decide, fun hcontra => ?_⟩
  rw [hcontra, h2] at h1
  exact absurd h1 (by decide)

/-- C9 (amended): on a fetch-level AI failure every extractor returns the
empty list (the canned substitution parses as a non-array), and an
AI-returned empty array is passed through; the non-empty defaults are
produced only by the catch-branch heuristics, reached when reading the
response shape throws (or, for the extractors without the inner JSON
rescue, when the content fails to parse). -/
theorem claim_C9_extractor_empty_paths :
    ∀ text : String,
      (extractJobTitles text .fetchFail = [] ∧ extractCompanies text .fetchFail = []
        ∧ extractSkills text .fetchFail = [] ∧ extractAchievements text .fetchFail = []
        ∧ extractProjects text .fetchFail = [])
      ∧ (extractJobTitles text (.content (.jsonArr [])) = []
        ∧ extractSkills text (.content (.jsonArr [])) = []
        ∧ extractProjects text (.content (.jsonArr [])) = [])
      ∧ ((extractJobTitles text .shapeError).isEmpty = false
        ∧ (extractCompanies text .shapeError).isEmpty = false
        ∧ (extractSkills text .shapeError).isEmpty = false
        ∧ (extractAchievements text .shapeError).isEmpty = false
        ∧ (extractProjects text .shapeError).isEmpty = false
        ∧ (extractCompanies text (.content .junk)).isEmpty = false
        ∧ (extractAchievements text (.content .junk)).isEmpty = false) := by
  intro text
  refine ⟨⟨rfl, rfl, rfl, rfl, rfl⟩, ⟨rfl, rfl, rfl⟩, ?_, ?_, ?_, ?_, ?_, ?_, ?_⟩
  · exact defaulted_nonempty _ _ rfl
  · exact defaulted_nonempty _ _ rfl
  · exact defaulted_nonempty _ _ rfl
  · exact defaulted_nonempty _ _ rfl
  · exact defaulted_nonempty _ _ rfl
  · exact defaulted_nonempty _ _ rfl
  · exact defaulted_nonempty _ _ rfl

/-- C9 counterexample: a résumé whose heuristic would find a job title still
yields the empty list when the fetch fails, and an AI-returned empty array
is not replaced by a default. -/
theorem claim_C9_counterexample :
    (extractJobTitles "Team lead at Foo Inc since 2019" .fetchFail).isEmpty = true
      ∧ (extractSkills "python developer resume" (.content (.jsonArr []))).isEmpty = true
      ∧ (fallbackJobTitles "Team lead at Foo Inc since 2019").isEmpty = false := by
  refine ⟨rfl, rfl, by decide⟩

lemma fallbackMatches_contained (rt jd : String) :
    ∀ kw ∈ fallbackMatches rt jd, keywordInResume rt kw = true := by
  intro kw hkw
  unfold fallbackMatches at hkw
  split_ifs at hkw with h
  · rw [List.mem_filter] at hkw
    obtain ⟨hmem, hcont⟩ := hkw
    fin_cases hmem <;> exact hcont
  · exact (List.mem_filter.mp hkw).2

lemma fallbackMissing_not_contained (rt jd : String) :
    ∀ kw ∈ fallbackMissing rt jd, keywordInResume rt kw = false := by
  intro kw hkw
  unfold fallbackMissing at hkw
  have h := (List.mem_filter.mp hkw).2
  simpa using h

lemma weighted25_mem {f : ℤ} {c k : ℚ} (hf0 : 0 ≤ f) (hf1 : f ≤ 100)
    (hc0 : 0 ≤ c) (hc1 : c ≤ 100) (hk0 : 0 ≤ k) (hk1 : k ≤ 100) :
    0 ≤ (f : ℚ) * (25/100) + c * (35/100) + k * (40/100)
      ∧ (f : ℚ) * (25/100) + c * (35/100) + k * (40/100) ≤ 100 := by
  have hf0q : (0 : ℚ) ≤ (f : ℚ) := by exact_mod_cast hf0
  have hf1q : (f : ℚ) ≤ 100 := by exact_mod_cast hf1
  constructor <;> nlinarith

lemma weighted30_mem {f : ℤ} {c k : ℚ} (hf0 : 0 ≤ f) (hf1 : f ≤ 100)
    (hc0 : 0 ≤ c) (hc1 : c ≤ 100) (hk0 : 0 ≤ k) (hk1 : k ≤ 100) :
    0 ≤ (f : ℚ) * (30/100) + c * (40/100) + k * (30/100)
      ∧ (f : ℚ) * (30/100) + c * (40/100) + k * (30/100) ≤ 100 := by
  have hf0q : (0 : ℚ) ≤ (f : ℚ) := by exact_mod_cast hf0
  have hf1q : (f : ℚ) ≤ 100 := by exact_mod_cast hf1
  constructor <;> nlinarith

/-- C2 (amended): every score placed in a report — with or without a job
description, for every AI outcome and jitter — lies in [0, 100];
`formatScore` and `atsScore` are integers by construction, and
`contentScore` / `keywordScore` are integers on the non-AI paths (the
fetch-failure substitution and the parse-failure fallbacks). -/
theorem claim_C2_scores_in_range :
    (∀ (resumeText jobDescription : String) (c : AICall ContentJson) (k : AICall KeywordJson),
      (0 ≤ (analyzeResumeWithJob resumeText jobDescription c k).atsScore
          ∧ (analyzeResumeWithJob resumeText jobDescription c k).atsScore ≤ 100)
        ∧ (0 ≤ (analyzeResumeWithJob resumeText jobDescription c k).formatScore
          ∧ (analyzeResumeWithJob resumeText jobDescription c k).formatScore ≤ 100)
        ∧ (0 ≤ (analyzeResumeWithJob resumeText jobDescription c k).keywordScore
          ∧ (analyzeResumeWithJob resumeText jobDescription c k).keywordScore ≤ 100)
        ∧ (0 ≤ (analyzeResumeWithJob resumeText jobDescription c k).contentScore
          ∧ (analyzeResumeWithJob resumeText jobDescription c k).contentScore ≤ 100))
    ∧ (∀ (resumeText : String) (c : AICall ContentJson) (r : Fin 10),
      (0 ≤ (analyzeResume resumeText c r).atsScore
          ∧ (analyzeResume resumeText c r).atsScore ≤ 100)
        ∧ (0 ≤ (analyzeResume resumeText c r).formatScore
          ∧ (analyzeResume resumeText c r).formatScore ≤ 100)
        ∧ (0 ≤ (analyzeResume resumeText c r).keywordScore
          ∧ (analyzeResume resumeText c r).keywordScore ≤ 100)
        ∧ (0 ≤ (analyzeResume resumeText c r).contentScore
          ∧ (analyzeResume resumeText c r).contentScore ≤ 100))
    ∧ (∀ resumeText jobDescription : String,
      ((analyzeResumeWithJob resumeText jobDescription .parseFail .parseFail).contentScore).den = 1
        ∧ ((analyzeResumeWithJob resumeText jobDescription .parseFail .parseFail).keywordScore).den = 1
        ∧ ((analyzeResumeWithJob resumeText jobDescription .fetchFail .fetchFail).contentScore).den = 1
        ∧ ((analyzeResumeWithJob resumeText jobDescription .fetchFail .fetchFail).keywordScore).den = 1) := by
  refine ⟨?_, ?_, ?_⟩
  · intro rt jd c k
    have hf := analyzeFormat_score_mem rt
    have hc := contentScore_mem rt c
    have hk := keywordScore_mem rt jd k
    refine ⟨?_, hf, hk, hc⟩
    show 0 ≤ jsRound _ ∧ jsRound _ ≤ 100
    have hd : 0 ≤ (if 0 < (compareWithJobDescription rt jd k).keywordMatches.length
            + (compareWithJobDescription rt jd k).missingKeywords.length then
          ((jsRound (((compareWithJobDescription rt jd k).keywordMatches.length : ℚ)
            / (((compareWithJobDescription rt jd k).keywordMatches.length
              + (compareWithJobDescription rt jd k).missingKeywords.length : ℕ) : ℚ) * 100) : ℤ) : ℚ)
        else (compareWithJobDescription rt jd k).keywordScore)
        ∧ (if 0 < (compareWithJobDescription rt jd k).keywordMatches.length
            + (compareWithJobDescription rt jd k).missingKeywords.length then
          ((jsRound (((compareWithJobDescription rt jd k).keywordMatches.length : ℚ)
            / (((compareWithJobDescription rt jd k).keywordMatches.length
              + (compareWithJobDescription rt jd k).missingKeywords.length : ℕ) : ℚ) * 100) : ℤ) : ℚ)
        else (compareWithJobDescription rt jd k).keywordScore) ≤ 100 := by
      split_ifs with h
      · have hm := ratioTimes100_mem (Nat.le_add_right _ _) h
        have hr := jsRound_mem hm.1 hm.2
        exact ⟨by exact_mod_cast hr.1, by exact_mod_cast hr.2⟩
      · exact hk
    have hq := weighted25_mem hf.1 hf.2 hc.1 hc.2 hd.1 hd.2
    exact jsRound_mem hq.1 hq.2
  · intro rt c r
    have hf := analyzeFormat_score_mem rt
    have hc := contentScore_mem rt c
    have hk : 0 ≤ min (85 : ℚ) (max 40 ((analyzeResumeContent rt c).contentScore + (r.val : ℚ) - 5))
        ∧ min (85 : ℚ) (max 40 ((analyzeResumeContent rt c).contentScore + (r.val : ℚ) - 5)) ≤ 100 := by
      constructor
      · exact le_min (by norm_num) (le_trans (by norm_num) (le_max_left _ _))
      · exact le_trans (min_le_left _ _) (by norm_num)
    refine ⟨?_, hf, hk, hc⟩
    show 0 ≤ jsRound _ ∧ jsRound _ ≤ 100
    have hq := weighted30_mem hf.1 hf.2 hc.1 hc.2 hk.1 hk.2
    exact jsRound_mem hq.1 hq.2
  · intro rt jd
    refine ⟨Rat.den_intCast _, ?_, by with_unfolding_all rfl, by with_unfolding_all rfl⟩
    show (generateFallbackKeywordAnalysis rt jd).keywordScore.den = 1
    unfold generateFallbackKeywordAnalysis
    simp only
    split_ifs
    · exact Rat.den_intCast _
    · with_unfolding_all rfl

/-- C2 counterexample: an AI content response carrying the score one half
passes the clamp unrounded, so the produced `contentScore` is not an
integer. -/
theorem claim_C2_counterexample :
    c2Report.contentScore = 1/2
      ∧ c2Report.contentScore.den = 2
      ∧ ¬ ∃ n : ℤ, c2Report.contentScore = (n : ℚ) := by
  have h1 : c2Report.contentScore = 1/2 := by with_unfolding_all rfl
  have h2 : c2Report.contentScore.den = 2 := by with_unfolding_all rfl
  refine ⟨h1, h2, ?_⟩
  rintro ⟨n, hn⟩
  have h3 : c2Report.contentScore.den = 1 := by rw [hn]; exact Rat.den_intCast n
  omega

/-- C5 (amended): in the fallback keyword matcher every returned match is
contained (case-insensitively) in the résumé and every returned missing
keyword is not; the keyword score is
`round(matches / (matches + missing) · 100)` — with the full, untruncated
missing list — whenever the matches list (after the default-term
augmentation) is non-empty, and the default 30 otherwise, even when missing
keywords exist. -/
theorem claim_C5_fallback_keyword_classification :
    ∀ resumeText jobDescription : String,
      ((generateFallbackKeywordAnalysis resumeText jobDescription).keywordMatches.all
          (fun kw => keywordInResume resumeText kw)) = true
      ∧ ((generateFallbackKeywordAnalysis resumeText jobDescription).missingKeywords.all
          (fun kw => !keywordInResume resumeText kw)) = true
      ∧ (generateFallbackKeywordAnalysis resumeText jobDescription).keywordScore
        = (if (fallbackMatches resumeText jobDescription).length = 0 then (30 : ℚ)
           else ((jsRound (((fallbackMatches resumeText jobDescription).length : ℚ)
              / (((fallbackMatches resumeText jobDescription).length
                + (fallbackMissing resumeText jobDescription).length : ℕ) : ℚ) * 100) : ℤ) : ℚ)) := by
  intro rt jd
  refine ⟨?_, ?_, ?_⟩
  · rw [List.all_eq_true]
    intro kw hkw
    exact fallbackMatches_contained rt jd kw hkw
  · rw [List.all_eq_true]
    intro kw hkw
    have hmem : kw ∈ fallbackMissing rt jd := List.take_subset 10 _ hkw
    simp [fallbackMissing_not_contained rt jd kw hmem]
  · show (if 0 < (fallbackMatches rt jd).length then _ else _) = _
    rcases Nat.eq_zero_or_pos (fallbackMatches rt jd).length with h | h
    · rw [if_neg (by omega), if_pos h]
    · rw [if_pos h, if_neg (by omega)]

/-- C5 counterexample: with résumé `"zzz"` and job description
`"kubernetes"` the only candidate is missing, so matches + missing is
non-zero, yet the score is the default 30 rather than
`round(0/1 · 100) = 0`. -/
theorem claim_C5_counterexample :
    (generateFallbackKeywordAnalysis "zzz" "kubernetes").keywordMatches = []
      ∧ (generateFallbackKeywordAnalysis "zzz" "kubernetes").missingKeywords = ["kubernetes"]
      ∧ (generateFallbackKeywordAnalysis "zzz" "kubernetes").keywordScore = 30
      ∧ jsRound ((0 : ℚ) / (0 + 1 : ℚ) * 100) = 0
      ∧ (30 : ℚ) ≠ ((0 : ℤ) : ℚ) := by
  have h1 : (generateFallbackKeywordAnalysis "zzz" "kubernetes").keywordMatches = [] := by
    with_unfolding_all rfl
  have h2 : (generateFallbackKeywordAnalysis "zzz" "kubernetes").missingKeywords
      = ["kubernetes"] := by
    with_unfolding_all rfl
  have h3 : (generateFallbackKeywordAnalysis "zzz" "kubernetes").keywordScore = 30 := by
    with_unfolding_all rfl
  have h4 : jsRound ((0 : ℚ) / (0 + 1 : ℚ) * 100) = 0 := by with_unfolding_all rfl
  refine ⟨h1, h2, h3, h4, by norm_num⟩

/-- C6 (amended): matches and missing are disjoint; the sum
`|matches| + |missing before truncation|` equals the number of unique
candidates whenever at least one candidate matched (when none matched, the
matches list holds default terms foreign to the candidate set); the
returned missing list is the first ten entries of the full one. -/
theorem claim_C6_matches_missing_partition :
    ∀ resumeText jobDescription : String,
      ((generateFallbackKeywordAnalysis resumeText jobDescription).keywordMatches.all
          (fun kw =>
            !((generateFallbackKeywordAnalysis resumeText jobDescription).missingKeywords.contains
              kw))) = true
      ∧ (generateFallbackKeywordAnalysis resumeText jobDescription).missingKeywords
          = (fallbackMissing resumeText jobDescription).take 10
      ∧ (generateFallbackKeywordAnalysis resumeText jobDescription).keywordMatches.length
            + (fallbackMissing resumeText jobDescription).length
          = (fallbackJobKeywords jobDescription).length
            + (if (fallbackMatchesRaw resumeText jobDescription).length = 0
               then (generateFallbackKeywordAnalysis resumeText jobDescription).keywordMatches.length
               else 0) := by
  intro rt jd
  refine ⟨?_, rfl, ?_⟩
  · rw [List.all_eq_true]
    intro kw hkw
    have h1 := fallbackMatches_contained rt jd kw hkw
    show (!((fallbackMissing rt jd).take 10).contains kw) = true
    have hns : kw ∉ (fallbackMissing rt jd).take 10 := by
      intro hmemT
      have hmem : kw ∈ fallbackMissing rt jd := List.take_subset 10 _ hmemT
      have h2 := fallbackMissing_not_contained rt jd kw hmem
      rw [h1] at h2
      exact Bool.noConfusion h2
    cases hcontains : ((fallbackMissing rt jd).take 10).contains kw
    · rfl
    · exact absurd (by simpa using hcontains) hns
  · have hpart := length_filter_partition (fallbackJobKeywords jd) (keywordInResume rt)
    have hm : (generateFallbackKeywordAnalysis rt jd).keywordMatches = fallbackMatches rt jd := rfl
    have hmiss : (fallbackMissing rt jd).length
        = ((fallbackJobKeywords jd).filter (fun k => !keywordInResume rt k)).length := rfl
    rw [hm, hmiss]
    unfold fallbackMatches
    split_ifs with h
    · unfold fallbackMatchesRaw at h
      omega
    · unfold fallbackMatchesRaw at h ⊢
      omega

/-- C6 counterexample: with résumé `"zzz"` and an eighteen-candidate job
description, the returned report holds no matches and only the first ten of
the eighteen missing keywords, so the advertised sum identity fails for the
report as returned (it holds only for the untruncated missing list). -/
theorem claim_C6_counterexample :
    (generateFallbackKeywordAnalysis "zzz" c6JobDesc).keywordMatches.length = 0
      ∧ (generateFallbackKeywordAnalysis "zzz" c6JobDesc).missingKeywords.length = 10
      ∧ (fallbackJobKeywords c6JobDesc).length = 18
      ∧ (generateFallbackKeywordAnalysis "zzz" c6JobDesc).keywordMatches.length
            + (generateFallbackKeywordAnalysis "zzz" c6JobDesc).missingKeywords.length
          ≠ (fallbackJobKeywords c6JobDesc).length
      ∧ (fallbackMissing "zzz" c6JobDesc).length = (fallbackJobKeywords c6JobDesc).length := by
  have hm : (generateFallbackKeywordAnalysis "zzz" c6JobDesc).keywordMatches.length = 0 := by
    with_unfolding_all rfl
  have hmiss : (generateFallbackKeywordAnalysis "zzz" c6JobDesc).missingKeywords.length
      = 10 := by
    with_unfolding_all rfl
  have hjk : (fallbackJobKeywords c6JobDesc).length = 18 := by
    with_unfolding_all rfl
  have hfull : (fallbackMissing "zzz" c6JobDesc).length = 18 := by
    with_unfolding_all rfl
  refine ⟨hm, hmiss, hjk, ?_, by rw [hfull, hjk]⟩
  rw [hm, hmiss, hjk]
  decide

/-- C7 (amended): every reclassified keyword carries status `"partial"`,
stays a member of the missing list, and satisfies the stem / constituent-word
rule; `"managed"` stems to `"manag"` and reclassifies against a résumé
containing `"managing"`, while `"is"` is never reclassified.  The rule alone
is not sufficient for reclassification: the surfaced list is capped to the
first eight qualifying keywords. -/
theorem claim_C7_partial_match_rule :
    (∀ (missingKeywords : List String) (resumeText : String) (q : CloudKeyword),
        q ∈ partMatches missingKeywords resumeText →
          q.status = "partial" ∧ q.found = false ∧ q.text ∈ missingKeywords
            ∧ isPartCandidate (strLower resumeText) q.text = true)
      ∧ jsStem "managed" = "manag"
      ∧ isPartCandidate (strLower "Experienced in managing teams") "managed" = true
      ∧ ∀ resumeText : String, isPartCandidate (strLower resumeText) "is" = false := by
  refine ⟨?_, by decide, by with_unfolding_all rfl, ?_⟩
  · intro missing rt q hq
    unfold partMatches at hq
    obtain ⟨kw, hkw, hqeq⟩ := List.mem_map.mp hq
    have hkw2 : kw ∈ (missing.filter (isPartCandidate (strLower rt))) :=
      List.take_subset 8 _ hkw
    have hmem := (List.mem_filter.mp hkw2).1
    have hcand := (List.mem_filter.mp hkw2).2
    subst hqeq
    exact ⟨rfl, rfl, hmem, hcand⟩
  · intro rt
    with_unfolding_all rfl

/-- C7 counterexample: against `c7Resume` all nine keywords of `c7Missing`
satisfy the partial-match rule, yet `"trained"`, the ninth, is absent from
the surfaced list because the memo truncates to eight entries. -/
theorem claim_C7_counterexample :
    isPartCandidate (strLower c7Resume) "trained" = true
      ∧ "trained" ∈ c7Missing
      ∧ (c7Missing.filter (isPartCandidate (strLower c7Resume))).length = 9
      ∧ (partMatches c7Missing c7Resume).length = 8
      ∧ ((partMatches c7Missing c7Resume).all fun q => q.text != "trained") = true := by
  refine ⟨by with_unfolding_all rfl, by decide, by with_unfolding_all rfl,
    by with_unfolding_all rfl, by with_unfolding_all rfl⟩

/-- C8: when the extracted profile passes the validity check and the AI
returns a non-empty question list of which fewer than seventy percent are
personalized, the engine discards the AI result and returns the fallback
generator's output. -/
theorem claim_C8_personalization_gate (resumeText : String) (jobTitle : Option String)
    (prof : ExtractedProfile) (questions : List InterviewQuestion)
    (hvalid : hasValidData prof = true)
    (hne : questions ≠ [])
    (hratio : ((questions.filter (isPersonalized prof)).length : ℚ)
        < (questions.length : ℚ) * (7/10)) :
    generateInterviewQuestions resumeText jobTitle prof (.parsed (some questions))
      = generateFallbackInterviewQuestions resumeText jobTitle prof := by
  have hempty : questions.isEmpty = false := by
    cases questions with
    | nil => exact absurd rfl hne
    | cons a l => rfl
  simp only [generateInterviewQuestions, hvalid, if_true, Option.getD_some, hempty,
    Bool.false_eq_true, if_false]
  rw [if_pos hratio]

/-- C8 witness: the concrete profile passes the validity check, exactly five
of the twelve AI questions are personalized (ratio below seventy percent),
and the engine returns the fallback list. -/
theorem claim_C8_witness :
    hasValidData c8Profile = true
      ∧ (c8Questions.filter (isPersonalized c8Profile)).length = 5
      ∧ c8Questions.length = 12
      ∧ ((c8Questions.filter (isPersonalized c8Profile)).length : ℚ)
          < (c8Questions.length : ℚ) * (7/10)
      ∧ generateInterviewQuestions "resume text" none c8Profile (.parsed (some c8Questions))
          = generateFallbackInterviewQuestions "resume text" none c8Profile := by
  have h1 : hasValidData c8Profile = true := by decide
  have h2 : (c8Questions.filter (isPersonalized c8Profile)).length = 5 := by
    with_unfolding_all rfl
  have h3 : c8Questions.length = 12 := by with_unfolding_all rfl
  have h4 : ((c8Questions.filter (isPersonalized c8Profile)).length : ℚ)
      < (c8Questions.length : ℚ) * (7/10) := by
    rw [h2, h3]
    norm_num
  have hne : c8Questions ≠ [] := by decide
  exact ⟨h1, h2, h3, h4,
    claim_C8_personalization_gate "resume text" none c8Profile c8Questions h1 hne h4⟩

end ATSScan
